import Mathlib

/-!
Verification development for the face-to-blendshape-3d repository.

The development shallowly embeds the numeric core of the pipeline:

* `src/face-mesh-generator.js` (the version built on `HeadGeometryGenerator`):
  bounding frame, texture-crop rectangle, head assembly, morph targets;
* `src/head-geometry-generator.js`: silhouette contour, spherical back
  extrusion, seam/ring/cap triangulation;
* `src/texture-mapper.js`: face-bounds and crop-rectangle computation;
* `src/arkit-mapper.js`: the MediaPipe-to-ARKit blendshape mapper and its
  landmark-geometry backfill heuristics.

JavaScript numbers are modelled as real numbers (`ℝ`) in the geometry code
(which uses `Math.sin` / `Math.cos`), and as rationals (`ℚ`) in the
blendshape mapper, whose operations (add, mul, min, max, abs, comparisons)
all stay inside `ℚ`; every IEEE double value is a rational number, so `ℚ`
contains every value the mapper can actually see at run time.
-/

set_option maxRecDepth 8000

namespace FaceToBlendshape

/-- One detected MediaPipe landmark: x,y in normalized image space, z a
normalized depth. -/
structure Landmark where
  x : ℝ
  y : ℝ
  z : ℝ

def landmark0 : Landmark := ⟨0, 0, 0⟩

/-- One model-space vertex of the generated geometry. -/
structure Vec3 where
  x : ℝ
  y : ℝ
  z : ℝ

def vec30 : Vec3 := ⟨0, 0, 0⟩

/-! ## Bounding frame (face-mesh-generator.js, generateWithMorphTargets)

The source initializes the accumulators with `Infinity` / `-Infinity` and
folds `Math.min` / `Math.max` over all landmarks.  Over the (always
nonempty) landmark list the result is exactly the minimum / maximum of the
coordinates, which the head-seeded fold below computes; the `[]` case is
junk that no claim uses. -/

noncomputable def genMinX : List Landmark → ℝ
  | [] => 0
  | lm :: rest => rest.foldl (fun a l => min a l.x) lm.x

noncomputable def genMaxX : List Landmark → ℝ
  | [] => 0
  | lm :: rest => rest.foldl (fun a l => max a l.x) lm.x

noncomputable def genMinY : List Landmark → ℝ
  | [] => 0
  | lm :: rest => rest.foldl (fun a l => min a l.y) lm.y

noncomputable def genMaxY : List Landmark → ℝ
  | [] => 0
  | lm :: rest => rest.foldl (fun a l => max a l.y) lm.y

noncomputable def genMinZ : List Landmark → ℝ
  | [] => 0
  | lm :: rest => rest.foldl (fun a l => min a l.z) lm.z

noncomputable def genMaxZ : List Landmark → ℝ
  | [] => 0
  | lm :: rest => rest.foldl (fun a l => max a l.z) lm.z

/-- `const centerX = (minX + maxX) / 2;` -/
noncomputable def centerX (lms : List Landmark) : ℝ := (genMinX lms + genMaxX lms) / 2

noncomputable def centerY (lms : List Landmark) : ℝ := (genMinY lms + genMaxY lms) / 2

noncomputable def centerZ (lms : List Landmark) : ℝ := (genMinZ lms + genMaxZ lms) / 2

/-- `const scaleX = maxX - minX;` — note: no epsilon fallback appears in the
source, the difference is used as a divisor as-is. -/
noncomputable def scaleX (lms : List Landmark) : ℝ := genMaxX lms - genMinX lms

noncomputable def scaleY (lms : List Landmark) : ℝ := genMaxY lms - genMinY lms

/-- `const scaleZ = Math.max(scaleX, scaleY);` -/
noncomputable def scaleZ (lms : List Landmark) : ℝ := max (scaleX lms) (scaleY lms)

/-! ## Texture crop bounds as computed inside the mesh generator
(`face-mesh-generator.js`): `padding = 0.2`,
`cropSize = Math.max(faceWidth, faceHeight) * (1 + padding)`,
`textureMinX = textureCenterX - cropSize / 2` — with
`faceWidth = maxX - minX` (the same value as `scaleX`) and
`textureCenterX = centerX`. -/

noncomputable def genCropSize (lms : List Landmark) : ℝ :=
  max (genMaxX lms - genMinX lms) (genMaxY lms - genMinY lms) * (1 + 0.2)

noncomputable def textureMinX (lms : List Landmark) : ℝ :=
  centerX lms - genCropSize lms / 2

noncomputable def textureMinY (lms : List Landmark) : ℝ :=
  centerY lms - genCropSize lms / 2

/-! ## TextureMapper (texture-mapper.js)

`getFaceBounds` starts from `minX = 1, minY = 1, maxX = 0, maxY = 0` and
folds min/max over the landmarks; `createFaceTexture` then computes the same
padding-0.2 crop square. -/

noncomputable def tmMinX (lms : List Landmark) : ℝ :=
  lms.foldl (fun a lm => min a lm.x) 1

noncomputable def tmMinY (lms : List Landmark) : ℝ :=
  lms.foldl (fun a lm => min a lm.y) 1

noncomputable def tmMaxX (lms : List Landmark) : ℝ :=
  lms.foldl (fun a lm => max a lm.x) 0

noncomputable def tmMaxY (lms : List Landmark) : ℝ :=
  lms.foldl (fun a lm => max a lm.y) 0

noncomputable def tmCropSize (lms : List Landmark) : ℝ :=
  max (tmMaxX lms - tmMinX lms) (tmMaxY lms - tmMinY lms) * (1 + 0.2)

/-- `const cropX = centerX - cropSize / 2;` with
`centerX = (bounds.minX + bounds.maxX) / 2`. -/
noncomputable def tmCropX (lms : List Landmark) : ℝ :=
  (tmMinX lms + tmMaxX lms) / 2 - tmCropSize lms / 2

noncomputable def tmCropY (lms : List Landmark) : ℝ :=
  (tmMinY lms + tmMaxY lms) / 2 - tmCropSize lms / 2

/-! ## Head geometry generator (head-geometry-generator.js) -/

/-- The hard-coded face outline used to seed the back-of-head extrusion
(first and last entry are both 10: closed-loop marker). -/
def silhouetteIndices : List ℕ :=
  [10, 109, 67, 103, 104, 105, 152, 106, 182, 136, 150, 338, 10]

/-- `const rings = 8;` -/
def ringsN : ℕ := 8

/-- `const verticesPerRing = silhouetteIndices.length - 1;` -/
def verticesPerRingN : ℕ := silhouetteIndices.length - 1

/-- `const headRadius = 1.2;` -/
noncomputable def headRadius : ℝ := 1.2

/-- `const t = ring / (rings - 1);` -/
noncomputable def ringT (ring : ℕ) : ℝ := (ring : ℝ) / ((ringsN : ℝ) - 1)

/-- `const angle = t * Math.PI;` -/
noncomputable def layerAngle (ring : ℕ) : ℝ := ringT ring * Real.pi

/-- `const radiusScale = 1.0 - (t * 0.2);` -/
noncomputable def radiusScale (ring : ℕ) : ℝ := 1 - ringT ring * 0.2

/-- `const verticalScale = 1.0 - (t * 0.1);` -/
noncomputable def verticalScale (ring : ℕ) : ℝ := 1 - ringT ring * 0.1

/-- The ring-dependent factor applied to each contour point's x:
`x *= (xyScale * 0.3 + 0.7) * radiusScale` with `xyScale = Math.cos(angle)`. -/
noncomputable def lateralScale (ring : ℕ) : ℝ :=
  (Real.cos (layerAngle ring) * 0.3 + 0.7) * radiusScale ring

/-- The layer depth:
`const z = -Math.sin(angle) * headRadius * radiusScale;`. -/
noncomputable def layerZ (ring : ℕ) : ℝ :=
  -Real.sin (layerAngle ring) * headRadius * radiusScale ring

/-- One back-of-head ring vertex (`generateSphericalBack` inner loop).
The integer-index conditions `i < verticesPerRing * 0.2` (= 2.4),
`i > verticesPerRing * 0.8` (= 9.6), `i > 3.6`, `i < 8.4` are written with
the equivalent natural-number bounds. -/
noncomputable def backVertex (lms : List Landmark) (cx cy sx sy : ℝ) (ring i : ℕ) : Vec3 :=
  let silIdx := silhouetteIndices.getD i 0
  let faceLandmark := lms.getD silIdx landmark0
  let x0 := (faceLandmark.x - cx) / sx * 2
  let y0 := -(faceLandmark.y - cy) / sy * 2
  let z := layerZ ring
  let x1 := x0 * lateralScale ring
  let y1 := y0 * verticalScale ring
  let y2 := if i < 3 ∨ 10 ≤ i then y1 + ringT ring * 0.3 else y1
  let x2 := if i < 3 ∨ 10 ≤ i then x1 * 0.85 else x1
  let x3 := if 3 < i ∧ i < 9 then x2 * 0.9 else x2
  ⟨x3, y2, z⟩

/-- The apex of the cranium dome:
`topY = -(faceLandmarks[10].y - centerY) / scaleY * 2 + 0.4`,
position `(0, topY, -headRadius * 0.6)`. -/
noncomputable def topCapVertex (lms : List Landmark) (cy sy : ℝ) : Vec3 :=
  ⟨0, -((lms.getD 10 landmark0).y - cy) / sy * 2 + 0.4, -headRadius * 0.6⟩

/-- All back vertices, ring-major, followed by the apex vertex
(`generateSphericalBack`). -/
noncomputable def backVertices (lms : List Landmark) (cx cy sx sy : ℝ) : List Vec3 :=
  ((List.range ringsN).flatMap fun ring =>
    (List.range verticesPerRingN).map fun i => backVertex lms cx cy sx sy ring i)
    ++ [topCapVertex lms cy sy]

/-- The normalized frontal vertices (`generateCompleteHead`, first loop). -/
noncomputable def frontVertices (lms : List Landmark) (cx cy cz sx sy sz : ℝ) : List Vec3 :=
  lms.map fun lm =>
    ⟨(lm.x - cx) / sx * 2, -(lm.y - cy) / sy * 2, -((lm.z - cz) / sz * 2)⟩

/-- The full vertex buffer of `generateCompleteHead`: frontal vertices
followed immediately by the back/extension vertices. -/
noncomputable def headVertices (lms : List Landmark) (cx cy cz sx sy sz : ℝ) : List Vec3 :=
  frontVertices lms cx cy cz sx sy sz ++ backVertices lms cx cy sx sy

/-- `generateSmoothTriangulation(startIdx, silhouetteIndices, rings,
verticesPerRing)`: face-to-ring-0 seam, ring-to-ring quads, last ring to the
top cap. -/
def generateSmoothTriangulation (startIdx : ℕ) (sil : List ℕ) (rings vpr : ℕ) : List ℕ :=
  let seam := (List.range vpr).flatMap fun i =>
    let faceIdx := sil.getD i 0
    let nextFaceIdx := sil.getD (i + 1) 0
    let backIdx := startIdx + i
    let nextBackIdx := startIdx + (i + 1) % vpr
    [faceIdx, nextFaceIdx, backIdx, nextFaceIdx, nextBackIdx, backIdx]
  let ringConn := (List.range (rings - 1)).flatMap fun ring =>
    let currentRingStart := startIdx + ring * vpr
    let nextRingStart := startIdx + (ring + 1) * vpr
    (List.range vpr).flatMap fun i =>
      let curr := currentRingStart + i
      let next := currentRingStart + (i + 1) % vpr
      let currNext := nextRingStart + i
      let nextNext := nextRingStart + (i + 1) % vpr
      [curr, next, currNext, next, nextNext, currNext]
  let lastRingStart := startIdx + (rings - 1) * vpr
  let topCapIdx := startIdx + rings * vpr
  let cap := (List.range vpr).flatMap fun i =>
    [lastRingStart + i, lastRingStart + (i + 1) % vpr, topCapIdx]
  seam ++ ringConn ++ cap

/-- The call made by `generateCompleteHead`: the start index for back
vertices is the hard-coded literal `468`, not the landmark count. -/
def backTriangulation : List ℕ :=
  generateSmoothTriangulation 468 silhouetteIndices ringsN verticesPerRingN

/-! ## Morph targets (face-mesh-generator.js) -/

/-- `MORPH_TARGET_NAMES` exactly as listed in face-mesh-generator.js. -/
def MORPH_TARGET_NAMES : List String := [
  "eyeBlinkLeft", "eyeBlinkRight", "eyeLookUpLeft", "eyeLookUpRight",
  "eyeLookDownLeft", "eyeLookDownRight", "eyeLookInLeft", "eyeLookInRight",
  "eyeLookOutLeft", "eyeLookOutRight", "eyeSquintLeft", "eyeSquintRight",
  "eyeWideLeft", "eyeWideRight", "browDownLeft", "browDownRight",
  "browInnerUp", "browOuterUpLeft", "browOuterUpRight", "jawOpen",
  "jawForward", "jawLeft", "jawRight", "mouthClose", "mouthFunnel",
  "mouthPucker", "mouthLeft", "mouthRight", "mouthSmileLeft", "mouthSmileRight",
  "mouthFrownLeft", "mouthFrownRight", "mouthUpperUpLeft", "mouthUpperUpRight",
  "mouthLowerDownLeft", "mouthLowerDownRight", "cheekPuff", "cheekSquintLeft",
  "cheekSquintRight", "noseSneerLeft", "noseSneerRight", "tongueOut"]

/-- One frontal vertex of `calculateMorphTarget`: the base normalization,
then the (mutually exclusive) switch cases for `jawOpen`, `eyeBlinkLeft`
and `eyeBlinkRight`, with `multiplier = 0.1`. -/
noncomputable def morphVertex (name : String) (index : ℕ) (lm : Landmark)
    (cx cy cz sx sy sz : ℝ) : Vec3 :=
  let x := (lm.x - cx) / sx * 2
  let y := -(lm.y - cy) / sy * 2
  let z := -((lm.z - cz) / sz * 2)
  let y1 := if name = "jawOpen" ∧ y < 0 then y - 0.1 * 0.5 else y
  let y2 := if name = "eyeBlinkLeft" ∧ 33 ≤ index ∧ index ≤ 133 then y1 - 0.1 * 0.2 else y1
  let y3 := if name = "eyeBlinkRight" ∧ 362 ≤ index ∧ index ≤ 398 then y2 - 0.1 * 0.2 else y2
  ⟨x, y3, z⟩

/-- `calculateMorphTarget`: the per-landmark loop followed by the
back-vertex copy loop
(`vertices.push(this.baseVertices[baseIdx], ...)` for
`i < totalVertexCount - landmarks.length`, `baseIdx = (landmarks.length + i) * 3`). -/
noncomputable def calculateMorphTarget (lms : List Landmark) (name : String)
    (cx cy cz sx sy sz : ℝ) (totalVertexCount : ℕ) (baseVertices : List Vec3) : List Vec3 :=
  ((List.range lms.length).map fun i =>
    morphVertex name i (lms.getD i landmark0) cx cy cz sx sy sz)
    ++ ((List.range (totalVertexCount - lms.length)).map fun i =>
      baseVertices.getD (lms.length + i) vec30)

/-- The vertex-selection rule of `calculateMorphTarget`, as a predicate:
the channel's switch case modifies vertex `index` (whose pre-switch
model-space y is `y`) exactly when this holds. -/
def morphSelected (name : String) (index : ℕ) (y : ℝ) : Prop :=
  (name = "jawOpen" ∧ y < 0) ∨
  (name = "eyeBlinkLeft" ∧ 33 ≤ index ∧ index ≤ 133) ∨
  (name = "eyeBlinkRight" ∧ 362 ≤ index ∧ index ≤ 398)

/-! ## Pipeline wiring (`generateWithMorphTargets`): the bounding frame is
computed once from the landmarks and passed to `generateCompleteHead` and
`createMorphTargets`; `totalVertexCount = headData.vertices.length / 3` and
`baseVertices` is the full head vertex buffer. -/

noncomputable def pipelineHeadVertices (lms : List Landmark) : List Vec3 :=
  headVertices lms (centerX lms) (centerY lms) (centerZ lms)
    (scaleX lms) (scaleY lms) (scaleZ lms)

noncomputable def pipelineFrontVertices (lms : List Landmark) : List Vec3 :=
  frontVertices lms (centerX lms) (centerY lms) (centerZ lms)
    (scaleX lms) (scaleY lms) (scaleZ lms)

noncomputable def pipelineBackVertices (lms : List Landmark) : List Vec3 :=
  backVertices lms (centerX lms) (centerY lms) (scaleX lms) (scaleY lms)

noncomputable def pipelineMorphTarget (lms : List Landmark) (name : String) : List Vec3 :=
  calculateMorphTarget lms name (centerX lms) (centerY lms) (centerZ lms)
    (scaleX lms) (scaleY lms) (scaleZ lms)
    (pipelineHeadVertices lms).length (pipelineHeadVertices lms)

/-- `createMorphTargets`: one buffer per entry of `MORPH_TARGET_NAMES`. -/
noncomputable def pipelineMorphTargets (lms : List Landmark) : List (List Vec3) :=
  MORPH_TARGET_NAMES.map fun name => pipelineMorphTarget lms name

/-- The pre-switch model-space y of frontal vertex `j`, at which the
selection rule of `calculateMorphTarget` is evaluated. -/
noncomputable def pipelineNormY (lms : List Landmark) (j : ℕ) : ℝ :=
  -((lms.getD j landmark0).y - centerY lms) / scaleY lms * 2

/-! ## Triangle-list edge counting

The index buffer is a flat list of vertex indices; consecutive triples form
triangles.  An (unordered) edge is shared by a triangle when two of the
triangle's three corners are its endpoints. -/

/-- Group a flat index list into triangles (`for (i = 0; i < len; i += 3)`). -/
def triples : List ℕ → List (ℕ × ℕ × ℕ)
  | a :: b :: c :: rest => (a, b, c) :: triples rest
  | _ => []

/-- Does triangle `t` contain the unordered edge `{a, b}`? -/
def hasEdge (t : ℕ × ℕ × ℕ) (a b : ℕ) : Bool :=
  let e (p q : ℕ) : Bool := (p == a && q == b) || (p == b && q == a)
  e t.1 t.2.1 || e t.2.1 t.2.2 || e t.2.2 t.1

/-- Number of triangles of `ts` containing the unordered edge `{a, b}`. -/
def countEdge (ts : List (ℕ × ℕ × ℕ)) (a b : ℕ) : ℕ :=
  ts.countP (fun t => hasEdge t a b)

/-- The extension triangulation as triangles. -/
def extTriangles : List (ℕ × ℕ × ℕ) := triples backTriangulation

/-- Modelled from the spec: the canonical topology table
(`FACEMESH_TESSELATION`, imported from `face-mesh-triangulation.js`) is not
among the repository's source files; only its import and its callers are.
Spec §4.2 describes it as a static triangle list over the frontal landmark
indices only, validated by asserting all indices are within
`[0, frontalVertexCount)` (the head generator labels the frontal vertices
0–467), and §4.5 states that every contour edge of the silhouette belongs to
exactly one frontal triangle.  A candidate table satisfies this contract
exactly when this predicate holds. -/
def CanonicalTopologyTable (tess : List (ℕ × ℕ × ℕ)) : Prop :=
  (∀ t ∈ tess, t.1 < 468 ∧ t.2.1 < 468 ∧ t.2.2 < 468) ∧
  (∀ i < verticesPerRingN,
    countEdge tess (silhouetteIndices.getD i 0) (silhouetteIndices.getD (i + 1) 0) = 1)

/-- A concrete table satisfying `CanonicalTopologyTable`: a triangle fan
over the silhouette contour (used only to witness satisfiability of the
contract). -/
def tessFan : List (ℕ × ℕ × ℕ) :=
  (List.range verticesPerRingN).map fun i =>
    (silhouetteIndices.getD i 0, silhouetteIndices.getD (i + 1) 0, 0)

end FaceToBlendshape

namespace ARKitMapper

/-!  Embedding of `arkit-mapper.js`.  All scalar arithmetic of this file
(add, sub, mul, min, max, abs, order comparisons) is exact on rationals, and
every IEEE double is rational, so the mapper is modelled over `ℚ`. -/

/-- A MediaPipe landmark as read by the mapper. -/
structure MPLandmark where
  x : ℚ
  y : ℚ
  z : ℚ
deriving DecidableEq

def mp0 : MPLandmark := ⟨0, 0, 0⟩

/-- One detector blendshape entry (`blendshape.categoryName`,
`blendshape.score`). -/
structure Category where
  categoryName : String
  score : ℚ
deriving DecidableEq

/-- `ARKIT_BLENDSHAPE_NAMES` exactly as listed in arkit-mapper.js (52). -/
def ARKIT_BLENDSHAPE_NAMES : List String := [
  "browDownLeft", "browDownRight", "browInnerUp", "browOuterUpLeft",
  "browOuterUpRight", "cheekPuff", "cheekSquintLeft", "cheekSquintRight",
  "eyeBlinkLeft", "eyeBlinkRight", "eyeLookDownLeft", "eyeLookDownRight",
  "eyeLookInLeft", "eyeLookInRight", "eyeLookOutLeft", "eyeLookOutRight",
  "eyeLookUpLeft", "eyeLookUpRight", "eyeSquintLeft", "eyeSquintRight",
  "eyeWideLeft", "eyeWideRight", "jawForward", "jawLeft", "jawOpen",
  "jawRight", "mouthClose", "mouthDimpleLeft", "mouthDimpleRight",
  "mouthFrownLeft", "mouthFrownRight", "mouthFunnel", "mouthLeft",
  "mouthLowerDownLeft", "mouthLowerDownRight", "mouthPressLeft",
  "mouthPressRight", "mouthPucker", "mouthRight", "mouthRollLower",
  "mouthRollUpper", "mouthShrugLower", "mouthShrugUpper", "mouthSmileLeft",
  "mouthSmileRight", "mouthStretchLeft", "mouthStretchRight",
  "mouthUpperUpLeft", "mouthUpperUpRight", "noseSneerLeft", "noseSneerRight",
  "tongueOut"]

/-- `createMapping()`: the MediaPipe-name → ARKit-name object, written in
source order.  Every entry maps a name to itself. -/
def createMapping : List (String × String) := [
  ("eyeBlinkLeft", "eyeBlinkLeft"), ("eyeBlinkRight", "eyeBlinkRight"),
  ("eyeLookDownLeft", "eyeLookDownLeft"), ("eyeLookDownRight", "eyeLookDownRight"),
  ("eyeLookInLeft", "eyeLookInLeft"), ("eyeLookInRight", "eyeLookInRight"),
  ("eyeLookOutLeft", "eyeLookOutLeft"), ("eyeLookOutRight", "eyeLookOutRight"),
  ("eyeLookUpLeft", "eyeLookUpLeft"), ("eyeLookUpRight", "eyeLookUpRight"),
  ("eyeSquintLeft", "eyeSquintLeft"), ("eyeSquintRight", "eyeSquintRight"),
  ("eyeWideLeft", "eyeWideLeft"), ("eyeWideRight", "eyeWideRight"),
  ("browDownLeft", "browDownLeft"), ("browDownRight", "browDownRight"),
  ("browInnerUp", "browInnerUp"), ("browOuterUpLeft", "browOuterUpLeft"),
  ("browOuterUpRight", "browOuterUpRight"),
  ("jawForward", "jawForward"), ("jawLeft", "jawLeft"),
  ("jawRight", "jawRight"), ("jawOpen", "jawOpen"),
  ("mouthClose", "mouthClose"), ("mouthFunnel", "mouthFunnel"),
  ("mouthPucker", "mouthPucker"), ("mouthLeft", "mouthLeft"),
  ("mouthRight", "mouthRight"), ("mouthSmileLeft", "mouthSmileLeft"),
  ("mouthSmileRight", "mouthSmileRight"), ("mouthFrownLeft", "mouthFrownLeft"),
  ("mouthFrownRight", "mouthFrownRight"), ("mouthDimpleLeft", "mouthDimpleLeft"),
  ("mouthDimpleRight", "mouthDimpleRight"), ("mouthStretchLeft", "mouthStretchLeft"),
  ("mouthStretchRight", "mouthStretchRight"), ("mouthRollLower", "mouthRollLower"),
  ("mouthRollUpper", "mouthRollUpper"), ("mouthShrugLower", "mouthShrugLower"),
  ("mouthShrugUpper", "mouthShrugUpper"), ("mouthPressLeft", "mouthPressLeft"),
  ("mouthPressRight", "mouthPressRight"), ("mouthLowerDownLeft", "mouthLowerDownLeft"),
  ("mouthLowerDownRight", "mouthLowerDownRight"), ("mouthUpperUpLeft", "mouthUpperUpLeft"),
  ("mouthUpperUpRight", "mouthUpperUpRight"), ("cheekPuff", "cheekPuff"),
  ("cheekSquintLeft", "cheekSquintLeft"), ("cheekSquintRight", "cheekSquintRight"),
  ("noseSneerLeft", "noseSneerLeft"), ("noseSneerRight", "noseSneerRight"),
  ("tongueOut", "tongueOut")]

/-- Setting one property of the (object-modelled-as-function) blendshape
map: `arkitBlendshapes[name] = value`. -/
def setKey (m : String → Option ℚ) (k : String) (v : ℚ) : String → Option ℚ :=
  fun q => if q = k then some v else m q

/-- `ARKIT_BLENDSHAPE_NAMES.forEach(name => { arkitBlendshapes[name] = 0; })`
starting from the empty object. -/
def initBlendshapes : String → Option ℚ :=
  ARKIT_BLENDSHAPE_NAMES.foldl (fun m n => setKey m n 0) (fun _ => none)

/-- `mediaPipeBlendshapes.forEach(...)`: look the category name up in the
mapping and, when found, store the score under the ARKit name. -/
def applyDetector (m0 : String → Option ℚ) (cats : List Category) : String → Option ℚ :=
  cats.foldl (fun m c =>
    match createMapping.lookup c.categoryName with
    | some arkitName => setKey m arkitName c.score
    | none => m) m0

/-!  `enhanceBlendshapesFromLandmarks(blendshapes, landmarks)` mutates the
blendshape object in five sequential steps (m0 → m1 → ... → m5 below):
jaw-open backfill when the stored `jawOpen` is exactly 0, each smile score
raised through a max when its landmark heuristic is positive, each brow-down
score overwritten when its brow heuristic is negative.  Each step is one
statement group of the source function; reads like
`blendshapes.mouthSmileLeft` are modelled as `(m "mouthSmileLeft").getD 0`
(the key is always present in pipeline use, the map having been initialized
over all 52 names). -/

/-- `const mouthOpenDistance = Math.abs(upperLip.y - lowerLip.y);` with
`upperLip = landmarks[13]`, `lowerLip = landmarks[14]`. -/
def mouthOpenDistance (lms : List MPLandmark) : ℚ :=
  |(lms.getD 13 mp0).y - (lms.getD 14 mp0).y|

/-- `if (blendshapes.jawOpen === 0) { blendshapes.jawOpen =
Math.min(mouthOpenDistance * 5, 1); }` -/
def jawStage (m0 : String → Option ℚ) (lms : List MPLandmark) : String → Option ℚ :=
  if m0 "jawOpen" = some 0 then
    setKey m0 "jawOpen" (min (mouthOpenDistance lms * 5) 1)
  else m0

/-- `const leftSmileIntensity = (leftMouthCorner.y - mouthCenter.y) * -10;`
with `leftMouthCorner = landmarks[61]`, `mouthCenter = landmarks[13]`. -/
def leftSmileIntensity (lms : List MPLandmark) : ℚ :=
  ((lms.getD 61 mp0).y - (lms.getD 13 mp0).y) * (-10)

/-- `const rightSmileIntensity = (rightMouthCorner.y - mouthCenter.y) * -10;`
with `rightMouthCorner = landmarks[291]`. -/
def rightSmileIntensity (lms : List MPLandmark) : ℚ :=
  ((lms.getD 291 mp0).y - (lms.getD 13 mp0).y) * (-10)

/-- `if (leftSmileIntensity > 0) { blendshapes.mouthSmileLeft =
Math.max(blendshapes.mouthSmileLeft, Math.min(leftSmileIntensity, 1)); }` -/
def smileLeftStage (m1 : String → Option ℚ) (lms : List MPLandmark) : String → Option ℚ :=
  if 0 < leftSmileIntensity lms then
    setKey m1 "mouthSmileLeft"
      (max ((m1 "mouthSmileLeft").getD 0) (min (leftSmileIntensity lms) 1))
  else m1

def smileRightStage (m2 : String → Option ℚ) (lms : List MPLandmark) : String → Option ℚ :=
  if 0 < rightSmileIntensity lms then
    setKey m2 "mouthSmileRight"
      (max ((m2 "mouthSmileRight").getD 0) (min (rightSmileIntensity lms) 1))
  else m2

/-- `const leftBrowHeight = (noseBridge.y - leftBrowInner.y) * 8;` with
`noseBridge = landmarks[6]`, `leftBrowInner = landmarks[107]`. -/
def leftBrowHeight (lms : List MPLandmark) : ℚ :=
  ((lms.getD 6 mp0).y - (lms.getD 107 mp0).y) * 8

/-- `const rightBrowHeight = (noseBridge.y - rightBrowInner.y) * 8;` with
`rightBrowInner = landmarks[336]`. -/
def rightBrowHeight (lms : List MPLandmark) : ℚ :=
  ((lms.getD 6 mp0).y - (lms.getD 336 mp0).y) * 8

/-- `if (leftBrowHeight < 0) { blendshapes.browDownLeft =
Math.min(Math.abs(leftBrowHeight), 1); }` -/
def browLeftStage (m3 : String → Option ℚ) (lms : List MPLandmark) : String → Option ℚ :=
  if leftBrowHeight lms < 0 then
    setKey m3 "browDownLeft" (min |leftBrowHeight lms| 1)
  else m3

def browRightStage (m4 : String → Option ℚ) (lms : List MPLandmark) : String → Option ℚ :=
  if rightBrowHeight lms < 0 then
    setKey m4 "browDownRight" (min |rightBrowHeight lms| 1)
  else m4

/-- The whole of `enhanceBlendshapesFromLandmarks`. -/
def enhanceBlendshapesFromLandmarks (m0 : String → Option ℚ) (lms : List MPLandmark) :
    String → Option ℚ :=
  browRightStage (browLeftStage (smileRightStage (smileLeftStage (jawStage m0 lms) lms) lms) lms) lms

/-- `mapMediaPipeToARKit(mediaPipeBlendshapes, landmarks)` with landmarks
supplied (the claims all concern calls with a LandmarkSet present). -/
def mapMediaPipeToARKit (cats : List Category) (lms : List MPLandmark) :
    String → Option ℚ :=
  enhanceBlendshapesFromLandmarks (applyDetector initBlendshapes cats) lms

/-- Squared distance between two landmarks (used to state what "moved 2×
further apart" means for a pair of mouth corners). -/
def distSq (p q : MPLandmark) : ℚ :=
  (p.x - q.x) ^ 2 + (p.y - q.y) ^ 2 + (p.z - q.z) ^ 2

end ARKitMapper

namespace FaceToBlendshape

/-! ## Shared structural lemmas -/

theorem backVertices_length (lms : List Landmark) (cx cy sx sy : ℝ) :
    (backVertices lms cx cy sx sy).length = 97 := by
  simp only [backVertices, List.length_append, List.length_flatMap, Function.comp_def,
    List.length_map, List.length_range, List.length_cons, List.length_singleton]
  decide

theorem headVertices_length (lms : List Landmark) (cx cy cz sx sy sz : ℝ) :
    (headVertices lms cx cy cz sx sy sz).length = lms.length + 97 := by
  simp [headVertices, frontVertices, backVertices_length]

theorem pipelineHeadVertices_length (lms : List Landmark) :
    (pipelineHeadVertices lms).length = lms.length + 97 := by
  simp [pipelineHeadVertices, headVertices_length]

theorem calculateMorphTarget_length (lms : List Landmark) (name : String)
    (cx cy cz sx sy sz : ℝ) (total : ℕ) (base : List Vec3) (h : lms.length ≤ total) :
    (calculateMorphTarget lms name cx cy cz sx sy sz total base).length = total := by
  simp [calculateMorphTarget]
  omega

/-! ## C1 -/

/-- C1: for every processed LandmarkSet the generator emits one morph-target
buffer per entry of `MORPH_TARGET_NAMES`, each with the same vertex count as
the combined position buffer — but `MORPH_TARGET_NAMES` has 42 entries, not
the 52 the claim (and the repository's README) state. -/
theorem morph_targets_are_42_buffers_of_full_vertex_count (lms : List Landmark) :
    MORPH_TARGET_NAMES.length = 42 ∧
    MORPH_TARGET_NAMES.length ≠ 52 ∧
    (pipelineMorphTargets lms).length = 42 ∧
    ∀ buf ∈ pipelineMorphTargets lms, buf.length = (pipelineHeadVertices lms).length := by
  refine ⟨by decide, by decide, by simp [pipelineMorphTargets]; decide, ?_⟩
  intro buf hbuf
  simp only [pipelineMorphTargets, List.mem_map] at hbuf
  obtain ⟨name, -, rfl⟩ := hbuf
  exact calculateMorphTarget_length lms name _ _ _ _ _ _ _ _
    (by simp [pipelineHeadVertices_length])

/-! ## C2 -/

/-- The LandmarkSet size the repository actually feeds the generator: the
MediaPipe Face Landmarker output, documented in the README as "478-point
facial landmark detection" producing a mesh of "478 vertices". -/
noncomputable def lms478 : List Landmark := List.replicate 478 ⟨0.5, 0.5, 0⟩

/-- C2: the extension vertices do sit contiguously right after the frontal
block (second conjunct), but the extension triangulation references them
starting at the hard-coded literal 468 (third conjunct), not at the frontal
vertex count 478 of the pipeline's actual LandmarkSet: the first emitted
extension-vertex index is 468, not 478. -/
theorem extension_triangulation_hardcodes_468 :
    (pipelineFrontVertices lms478).length = 478 ∧
    (∀ k : ℕ, (pipelineHeadVertices lms478).getD (478 + k) vec30 =
      (pipelineBackVertices lms478).getD k vec30) ∧
    backTriangulation.getD 2 0 = 468 ∧
    backTriangulation.getD 2 0 ≠ 478 := by
  have hfront : (pipelineFrontVertices lms478).length = 478 := by
    simp [pipelineFrontVertices, frontVertices, lms478]
  refine ⟨hfront, ?_, by decide, by decide⟩
  intro k
  have hsplit : pipelineHeadVertices lms478 =
      pipelineFrontVertices lms478 ++ pipelineBackVertices lms478 := rfl
  rw [hsplit, List.getD_append_right _ _ _ _ (by omega), hfront]
  congr 1
  omega

/-! ## C5 -/

/-- A degenerate LandmarkSet whose bounding box has zero width: every x
coordinate equals 1/2 (the y extent is nonzero). -/
noncomputable def lmsDeg : List Landmark := [⟨1/2, 1/5, 0⟩, ⟨1/2, 4/5, 1/10⟩]

/-- C5: on a zero-width LandmarkSet the bounding-frame x scale the pipeline
divides by is exactly 0 — there is no epsilon fallback, so
`(landmark.x - centerX) / scaleX` in `generateCompleteHead`,
`generateSphericalBack` and `calculateMorphTarget` is a division by zero
(`0/0`, i.e. NaN in JavaScript). -/
theorem degenerate_bbox_scale_is_zero :
    scaleX lmsDeg = 0 ∧ ¬ 0 < scaleX lmsDeg := by
  have h : scaleX lmsDeg = 0 := by
    simp [scaleX, genMaxX, genMinX, lmsDeg]
  exact ⟨h, by rw [h]; exact lt_irrefl 0⟩

end FaceToBlendshape
namespace FaceToBlendshape

/-! ## C3: watertightness of the seam and of the ring-to-ring connectivity -/

/-- The three (oriented) edges of one triangle. -/
def triEdges (t : ℕ × ℕ × ℕ) : List (ℕ × ℕ) := [(t.1, t.2.1), (t.2.1, t.2.2), (t.2.2, t.1)]

/-- All (oriented) edges occurring in a triangle list. -/
def allEdges (ts : List (ℕ × ℕ × ℕ)) : List (ℕ × ℕ) := ts.flatMap triEdges

/-- Unordered-edge normalization: smaller endpoint first. -/
def normEdge (p : ℕ × ℕ) : ℕ × ℕ := if p.1 ≤ p.2 then p else (p.2, p.1)

/-- Index `v` is a vertex of extension ring `(v - 468) / 12` exactly when
`468 ≤ v < 564` (8 rings of 12 vertices each follow the frontal block in the
generated buffer; 564 is the apex).  This predicate holds when the edge `p`
joins two vertices of consecutive extension rings. -/
def crossesConsecutiveRings (p : ℕ × ℕ) : Bool :=
  468 ≤ p.1 && p.1 < 564 && 468 ≤ p.2 && p.2 < 564 &&
    ((p.2 - 468) / 12 == (p.1 - 468) / 12 + 1 || (p.1 - 468) / 12 == (p.2 - 468) / 12 + 1)

/-- A triangle with three pairwise distinct corners. -/
def distinctTri (t : ℕ × ℕ × ℕ) : Prop := t.1 ≠ t.2.1 ∧ t.2.1 ≠ t.2.2 ∧ t.2.2 ≠ t.1

/-- One pass over a sorted key list: the keys come in blocks of exactly two
equal entries, strictly increasing from block to block. -/
def pairedStrict : List ℕ → Bool
  | [] => true
  | [_] => false
  | a :: b :: r => a == b && (match r with | [] => true | c :: _ => a < c) && pairedStrict r

/-- A globally injective key for an edge. -/
def edgeKey (p : ℕ × ℕ) : ℕ := Nat.pair p.1 p.2

/-- The (normalized) ring-crossing edges of a triangle list, keyed. -/
def crossKeys (ts : List (ℕ × ℕ × ℕ)) : List ℕ :=
  (((allEdges ts).filter crossesConsecutiveRings).map normEdge).map edgeKey

/-- The keyed crossing edges of the extension triangulation, sorted
(structural insertion sort, so that kernel evaluation can reduce it). -/
def sortedCrossKeys : List ℕ := List.insertionSort (fun a b => a ≤ b) (crossKeys extTriangles)

instance (t : ℕ × ℕ × ℕ) : Decidable (distinctTri t) :=
  inferInstanceAs (Decidable (_ ∧ _))

theorem normEdge_eq_iff (p q : ℕ × ℕ) :
    normEdge p = normEdge q ↔ q = p ∨ q = (p.2, p.1) := by
  obtain ⟨a, b⟩ := p
  obtain ⟨c, d⟩ := q
  by_cases h1 : a ≤ b <;> by_cases h2 : c ≤ d <;>
    simp [normEdge, h1, h2, Prod.ext_iff] <;> omega

theorem count_triEdges (x y z a b : ℕ) (h1 : x ≠ y) (h2 : y ≠ z) (h3 : z ≠ x) :
    ((triEdges (x, y, z)).map normEdge).count (normEdge (a, b)) =
      if hasEdge (x, y, z) a b = true then 1 else 0 := by
  have E : ∀ u v : ℕ, (normEdge (u, v) = normEdge (a, b)) ↔
      ((u = a ∧ v = b) ∨ (u = b ∧ v = a)) := by
    intro u v
    rw [normEdge_eq_iff]
    simp only [Prod.ext_iff]
    omega
  simp only [triEdges, List.map_cons, List.map_nil]
  rw [List.count_cons, List.count_cons, List.count_cons, List.count_nil]
  simp only [beq_iff_eq, E]
  simp only [hasEdge, Bool.or_eq_true, Bool.and_eq_true, beq_iff_eq]
  clear E
  by_cases c1 : (x = a ∧ y = b) ∨ (x = b ∧ y = a) <;>
  by_cases c2 : (y = a ∧ z = b) ∨ (y = b ∧ z = a) <;>
  by_cases c3 : (z = a ∧ x = b) ∨ (z = b ∧ x = a) <;>
    (try simp [c1, c2, c3]) <;> omega

theorem countEdge_eq_count (ts : List (ℕ × ℕ × ℕ)) (h : ∀ t ∈ ts, distinctTri t) (a b : ℕ) :
    countEdge ts a b = ((allEdges ts).map normEdge).count (normEdge (a, b)) := by
  induction ts with
  | nil => rfl
  | cons t ts ih =>
    obtain ⟨x, y, z⟩ := t
    have hd : distinctTri (x, y, z) := h _ (by simp)
    obtain ⟨h1, h2, h3⟩ : x ≠ y ∧ y ≠ z ∧ z ≠ x := hd
    have hts : ∀ u ∈ ts, distinctTri u := fun u hu => h u (by simp [hu])
    have hsplit : allEdges ((x, y, z) :: ts) = triEdges (x, y, z) ++ allEdges ts := rfl
    rw [countEdge, List.countP_cons, hsplit, List.map_append, List.count_append,
      count_triEdges x y z a b h1 h2 h3, ← countEdge, ih hts]
    omega

theorem crossing_swap (u v : ℕ) :
    crossesConsecutiveRings (v, u) = crossesConsecutiveRings (u, v) := by
  rw [Bool.eq_iff_iff]
  simp only [crossesConsecutiveRings, Bool.and_eq_true, Bool.or_eq_true,
    decide_eq_true_eq, beq_iff_eq]
  omega

theorem crossing_congr (p q : ℕ × ℕ) (h : normEdge p = normEdge q) :
    crossesConsecutiveRings p = crossesConsecutiveRings q := by
  rcases (normEdge_eq_iff p q).1 h with h' | h'
  · rw [h']
  · obtain ⟨u, v⟩ := p
    simp only at h'
    rw [h', crossing_swap]

theorem count_map_filter (L : List (ℕ × ℕ)) (p : ℕ × ℕ)
    (hp : crossesConsecutiveRings p = true) :
    ((L.filter crossesConsecutiveRings).map normEdge).count (normEdge p) =
      (L.map normEdge).count (normEdge p) := by
  induction L with
  | nil => rfl
  | cons q L ih =>
    rw [List.filter_cons]
    by_cases hq : normEdge q = normEdge p
    · have hcq : crossesConsecutiveRings q = true := by
        rw [crossing_congr q p hq]; exact hp
      rw [if_pos hcq]
      simp [List.count_cons, hq, ih]
    · by_cases hcq : crossesConsecutiveRings q = true
      · rw [if_pos hcq]
        simp [List.count_cons, hq, ih]
      · rw [if_neg hcq, ih]
        simp [List.count_cons, hq]

theorem edgeKey_injective : Function.Injective edgeKey := by
  intro p q h
  have h2 := Nat.pair_eq_pair.1 h
  exact Prod.ext h2.1 h2.2

theorem count_map_edgeKey (l : List (ℕ × ℕ)) (x : ℕ × ℕ) :
    (l.map edgeKey).count (edgeKey x) = l.count x := by
  induction l with
  | nil => rfl
  | cons q l ih =>
    simp only [List.map_cons, List.count_cons, ih]
    congr 1
    by_cases h : q = x
    · simp [h]
    · have hk : edgeKey q ≠ edgeKey x := fun he => h (edgeKey_injective he)
      simp [h, hk]

theorem pairedStrict_le (l : List ℕ) : pairedStrict l = true → ∀ x ∈ l, l.head! ≤ x := by
  induction l using pairedStrict.induct with
  | case1 => intro _ x hx; cases hx
  | case2 a => intro hl; simp [pairedStrict] at hl
  | case3 a b r ih =>
    intro hl x hx
    simp only [pairedStrict, Bool.and_eq_true, beq_iff_eq] at hl
    obtain ⟨⟨hab, hblock⟩, hr⟩ := hl
    simp only [List.mem_cons] at hx
    rcases hx with rfl | rfl | hxr
    · simp
    · simp [hab]
    · cases r with
      | nil => cases hxr
      | cons c r' =>
        have hc : a < c := by simpa using hblock
        have h2 := ih hr x hxr
        simp only [List.head!] at h2 ⊢
        omega

theorem pairedStrict_count (l : List ℕ) : pairedStrict l = true → ∀ x ∈ l, l.count x = 2 := by
  induction l using pairedStrict.induct with
  | case1 => intro _ x hx; cases hx
  | case2 a => intro hl; simp [pairedStrict] at hl
  | case3 a b r ih =>
    intro hl x hx
    simp only [pairedStrict, Bool.and_eq_true, beq_iff_eq] at hl
    obtain ⟨⟨hab, hblock⟩, hr⟩ := hl
    subst hab
    have hnotin : a ∉ r := by
      cases r with
      | nil => simp
      | cons c r' =>
        have hc : a < c := by simpa using hblock
        intro hmem
        have h2 := pairedStrict_le (c :: r') hr a hmem
        simp only [List.head!] at h2
        omega
    simp only [List.mem_cons] at hx
    rcases hx with rfl | rfl | hxr
    · rw [List.count_cons, List.count_cons, List.count_eq_zero.2 hnotin]
      simp
    · rw [List.count_cons, List.count_cons, List.count_eq_zero.2 hnotin]
      simp
    · have hxa : x ≠ a := fun he => hnotin (he ▸ hxr)
      rw [List.count_cons, List.count_cons, ih hr x hxr]
      simp [Ne.symm hxa]


instance (tess : List (ℕ × ℕ × ℕ)) : Decidable (CanonicalTopologyTable tess) :=
  inferInstanceAs (Decidable (_ ∧ _))

namespace C3Support

theorem extTriangles_distinct : ∀ t ∈ extTriangles, distinctTri t := by decide

theorem sortedCrossKeys_paired : pairedStrict sortedCrossKeys = true := by decide

theorem seam_ext_counts : ∀ i < verticesPerRingN,
    countEdge extTriangles (silhouetteIndices.getD i 0)
      (silhouetteIndices.getD (i + 1) 0) = 1 := by
  decide

end C3Support

theorem countEdge_append (t1 t2 : List (ℕ × ℕ × ℕ)) (a b : ℕ) :
    countEdge (t1 ++ t2) a b = countEdge t1 a b + countEdge t2 a b :=
  List.countP_append _ _ _

theorem countEdge_zero_of_lt (tess : List (ℕ × ℕ × ℕ))
    (h : ∀ t ∈ tess, t.1 < 468 ∧ t.2.1 < 468 ∧ t.2.2 < 468) (a b : ℕ) (ha : 468 ≤ a) :
    countEdge tess a b = 0 := by
  rw [countEdge, List.countP_eq_zero]
  intro t ht
  obtain ⟨hx, hy, hz⟩ := h t ht
  simp only [hasEdge, Bool.or_eq_true, Bool.and_eq_true, beq_iff_eq]
  omega

theorem allEdges_tess_not_crossing (tess : List (ℕ × ℕ × ℕ))
    (h : ∀ t ∈ tess, t.1 < 468 ∧ t.2.1 < 468 ∧ t.2.2 < 468)
    (p : ℕ × ℕ) (hp : p ∈ allEdges tess) : crossesConsecutiveRings p = false := by
  rw [allEdges, List.mem_flatMap] at hp
  obtain ⟨t, ht, hpt⟩ := hp
  obtain ⟨hx, hy, hz⟩ := h t ht
  simp only [triEdges, List.mem_cons, List.not_mem_nil, or_false] at hpt
  rcases hpt with rfl | rfl | rfl <;>
  · rw [Bool.eq_false_iff]
    simp only [ne_eq, crossesConsecutiveRings, Bool.and_eq_true, decide_eq_true_eq,
      Bool.or_eq_true, beq_iff_eq]
    omega

theorem interring_count_ext (p : ℕ × ℕ) (hmem : p ∈ allEdges extTriangles)
    (hcross : crossesConsecutiveRings p = true) :
    countEdge extTriangles p.1 p.2 = 2 := by
  have h1 : countEdge extTriangles p.1 p.2 =
      ((allEdges extTriangles).map normEdge).count (normEdge (p.1, p.2)) :=
    countEdge_eq_count extTriangles C3Support.extTriangles_distinct p.1 p.2
  have hpe : (p.1, p.2) = p := rfl
  rw [hpe] at h1
  rw [h1, ← count_map_filter (allEdges extTriangles) p hcross]
  have hk : (((allEdges extTriangles).filter crossesConsecutiveRings).map normEdge).count
        (normEdge p) = (crossKeys extTriangles).count (edgeKey (normEdge p)) :=
    (count_map_edgeKey _ _).symm
  rw [hk]
  have hsorted : sortedCrossKeys.count (edgeKey (normEdge p)) =
      (crossKeys extTriangles).count (edgeKey (normEdge p)) :=
    (List.perm_insertionSort _ _).count_eq _
  rw [← hsorted]
  apply pairedStrict_count sortedCrossKeys C3Support.sortedCrossKeys_paired
  have hmem2 : edgeKey (normEdge p) ∈ crossKeys extTriangles := by
    apply List.mem_map_of_mem
    apply List.mem_map_of_mem
    exact List.mem_filter.2 ⟨hmem, hcross⟩
  exact ((List.perm_insertionSort (fun a b => a ≤ b) (crossKeys extTriangles)).mem_iff).2 hmem2

/-- C3: with the canonical topology table modelled from the spec
(`CanonicalTopologyTable`), in the merged index buffer every silhouette
contour edge on the frontal/extension seam lies in exactly two triangles —
one of the table, one seam triangle — and every edge joining two
consecutive extension rings lies in exactly two triangles. -/
theorem seam_and_interring_edges_watertight (tess : List (ℕ × ℕ × ℕ))
    (h : CanonicalTopologyTable tess) :
    (∀ i < verticesPerRingN,
      countEdge (tess ++ extTriangles) (silhouetteIndices.getD i 0)
          (silhouetteIndices.getD (i + 1) 0) = 2 ∧
      countEdge tess (silhouetteIndices.getD i 0) (silhouetteIndices.getD (i + 1) 0) = 1 ∧
      countEdge extTriangles (silhouetteIndices.getD i 0)
          (silhouetteIndices.getD (i + 1) 0) = 1) ∧
    (∀ p ∈ allEdges (tess ++ extTriangles), crossesConsecutiveRings p = true →
      countEdge (tess ++ extTriangles) p.1 p.2 = 2) := by
  obtain ⟨hbound, hcontour⟩ := h
  constructor
  · intro i hi
    have he := C3Support.seam_ext_counts i hi
    have ht := hcontour i hi
    refine ⟨?_, ht, he⟩
    rw [countEdge_append, ht, he]
  · intro p hp hcross
    have hsplit : allEdges (tess ++ extTriangles) =
        allEdges tess ++ allEdges extTriangles := by
      rw [allEdges, allEdges, allEdges, List.flatMap_append]
    rw [hsplit, List.mem_append] at hp
    rcases hp with hp | hp
    · have hfalse := allEdges_tess_not_crossing tess hbound p hp
      rw [hfalse] at hcross
      cases hcross
    · have hge : 468 ≤ p.1 := by
        simp only [crossesConsecutiveRings, Bool.and_eq_true, decide_eq_true_eq,
          Bool.or_eq_true, beq_iff_eq] at hcross
        omega
      rw [countEdge_append, countEdge_zero_of_lt tess hbound p.1 p.2 hge,
        interring_count_ext p hp hcross]

/-- C3 witness: the spec-modelled canonical-topology contract is satisfied
by a concrete table (a triangle fan over the silhouette contour), and the
watertightness conclusion holds for it. -/
theorem seam_and_interring_edges_watertight_witness :
    CanonicalTopologyTable tessFan ∧
    ((∀ i < verticesPerRingN,
      countEdge (tessFan ++ extTriangles) (silhouetteIndices.getD i 0)
          (silhouetteIndices.getD (i + 1) 0) = 2 ∧
      countEdge tessFan (silhouetteIndices.getD i 0) (silhouetteIndices.getD (i + 1) 0) = 1 ∧
      countEdge extTriangles (silhouetteIndices.getD i 0)
          (silhouetteIndices.getD (i + 1) 0) = 1) ∧
    (∀ p ∈ allEdges (tessFan ++ extTriangles), crossesConsecutiveRings p = true →
      countEdge (tessFan ++ extTriangles) p.1 p.2 = 2)) := by
  have h : CanonicalTopologyTable tessFan := by decide
  exact ⟨h, seam_and_interring_edges_watertight tessFan h⟩

end FaceToBlendshape
namespace FaceToBlendshape

/-! ## C6: the crop rectangle and the UV rectangle agree -/

theorem foldl_min_acc (g : Landmark → ℝ) (l : List Landmark) :
    ∀ a b : ℝ, l.foldl (fun acc lm => min acc (g lm)) (min a b) =
      min a (l.foldl (fun acc lm => min acc (g lm)) b) := by
  induction l with
  | nil => intro a b; rfl
  | cons c l ih =>
    intro a b
    simp only [List.foldl_cons]
    rw [min_assoc, ih]

theorem foldl_max_acc (g : Landmark → ℝ) (l : List Landmark) :
    ∀ a b : ℝ, l.foldl (fun acc lm => max acc (g lm)) (max a b) =
      max a (l.foldl (fun acc lm => max acc (g lm)) b) := by
  induction l with
  | nil => intro a b; rfl
  | cons c l ih =>
    intro a b
    simp only [List.foldl_cons]
    rw [max_assoc, ih]

/-- With all coordinates inside `[0,1]`, the TextureMapper's bounds (seeded
with 1 / 0) coincide with the generator's bounds (seeded with the head
element, modelling the `Infinity` seeds). -/
theorem tm_bounds_eq_gen (lms : List Landmark) (hne : lms ≠ [])
    (hx : ∀ lm ∈ lms, 0 ≤ lm.x ∧ lm.x ≤ 1) (hy : ∀ lm ∈ lms, 0 ≤ lm.y ∧ lm.y ≤ 1) :
    tmMinX lms = genMinX lms ∧ tmMaxX lms = genMaxX lms ∧
    tmMinY lms = genMinY lms ∧ tmMaxY lms = genMaxY lms := by
  obtain ⟨lm, rest, rfl⟩ := List.exists_cons_of_ne_nil hne
  refine ⟨?_, ?_, ?_, ?_⟩
  · show (lm :: rest).foldl (fun a l => min a l.x) 1 = rest.foldl (fun a l => min a l.x) lm.x
    rw [List.foldl_cons]
    congr 1
    exact min_eq_right (hx lm (by simp)).2
  · show (lm :: rest).foldl (fun a l => max a l.x) 0 = rest.foldl (fun a l => max a l.x) lm.x
    rw [List.foldl_cons]
    congr 1
    exact max_eq_right (hx lm (by simp)).1
  · show (lm :: rest).foldl (fun a l => min a l.y) 1 = rest.foldl (fun a l => min a l.y) lm.y
    rw [List.foldl_cons]
    congr 1
    exact min_eq_right (hy lm (by simp)).2
  · show (lm :: rest).foldl (fun a l => max a l.y) 0 = rest.foldl (fun a l => max a l.y) lm.y
    rw [List.foldl_cons]
    congr 1
    exact max_eq_right (hy lm (by simp)).1

/-- C6: for a nonempty LandmarkSet with x,y in [0,1], the crop square the
mesh generator uses for UV coordinates (`cropSize`, `textureMinX`,
`textureMinY`) is exactly the crop square the TextureMapper extracts
(`cropSize`, `cropX`, `cropY`): same size, same origin. -/
theorem crop_rect_matches_uv_rect (lms : List Landmark) (hne : lms ≠ [])
    (hx : ∀ lm ∈ lms, 0 ≤ lm.x ∧ lm.x ≤ 1) (hy : ∀ lm ∈ lms, 0 ≤ lm.y ∧ lm.y ≤ 1) :
    genCropSize lms = tmCropSize lms ∧ textureMinX lms = tmCropX lms ∧
    textureMinY lms = tmCropY lms := by
  obtain ⟨e1, e2, e3, e4⟩ := tm_bounds_eq_gen lms hne hx hy
  refine ⟨?_, ?_, ?_⟩ <;>
    simp [genCropSize, tmCropSize, textureMinX, tmCropX, textureMinY, tmCropY,
      centerX, centerY, e1, e2, e3, e4]

noncomputable def lmsC6 : List Landmark := [⟨1/5, 3/10, 0⟩, ⟨7/10, 3/5, 1/10⟩]

/-- C6 witness: a concrete two-landmark set inside the unit square. -/
theorem crop_rect_matches_uv_rect_witness :
    lmsC6 ≠ [] ∧ (∀ lm ∈ lmsC6, 0 ≤ lm.x ∧ lm.x ≤ 1) ∧
    (∀ lm ∈ lmsC6, 0 ≤ lm.y ∧ lm.y ≤ 1) ∧
    (genCropSize lmsC6 = tmCropSize lmsC6 ∧ textureMinX lmsC6 = tmCropX lmsC6 ∧
      textureMinY lmsC6 = tmCropY lmsC6) := by
  have h1 : lmsC6 ≠ [] := by simp [lmsC6]
  have h2 : ∀ lm ∈ lmsC6, 0 ≤ lm.x ∧ lm.x ≤ 1 := by
    intro lm hlm
    simp only [lmsC6, List.mem_cons, List.not_mem_nil, or_false] at hlm
    rcases hlm with rfl | rfl <;> norm_num
  have h3 : ∀ lm ∈ lmsC6, 0 ≤ lm.y ∧ lm.y ≤ 1 := by
    intro lm hlm
    simp only [lmsC6, List.mem_cons, List.not_mem_nil, or_false] at hlm
    rcases hlm with rfl | rfl <;> norm_num
  exact ⟨h1, h2, h3, crop_rect_matches_uv_rect lmsC6 h1 h2 h3⟩

/-! ## C7: rigid skull and unselected vertices -/

theorem getD_map_range {β : Type} (n k : ℕ) (f : ℕ → β) (d : β) (h : k < n) :
    ((List.range n).map f).getD k d = f k := by
  simp [List.getD_eq_getElem?_getD, List.getElem?_map, List.getElem?_range h]

theorem getD_map_lms (l : List Landmark) (f : Landmark → Vec3) (j : ℕ) (h : j < l.length)
    (d : Vec3) : (l.map f).getD j d = f (l.getD j landmark0) := by
  simp [List.getD_eq_getElem?_getD, List.getElem?_map, List.getElem?_eq_getElem h]

/-- C7: in every channel's morph-target buffer, (a) every extension-vertex
entry equals the base position entry exactly (the skull never deforms), and
(b) every frontal vertex not selected by the channel's displacement rule
keeps exactly its base position. -/
theorem morph_rigid_skull_and_unselected (lms : List Landmark) (name : String) :
    (∀ i, lms.length ≤ i → i < (pipelineHeadVertices lms).length →
      (pipelineMorphTarget lms name).getD i vec30 =
        (pipelineHeadVertices lms).getD i vec30) ∧
    (∀ j, j < lms.length → ¬ morphSelected name j (pipelineNormY lms j) →
      (pipelineMorphTarget lms name).getD j vec30 =
        (pipelineHeadVertices lms).getD j vec30) := by
  have hfrontlen : ((List.range lms.length).map fun i =>
      morphVertex name i (lms.getD i landmark0) (centerX lms) (centerY lms) (centerZ lms)
        (scaleX lms) (scaleY lms) (scaleZ lms)).length = lms.length := by
    simp
  have htot := pipelineHeadVertices_length lms
  constructor
  · intro i hi hilt
    show ((List.range lms.length).map _ ++ (List.range _).map _).getD i vec30 = _
    rw [List.getD_append_right _ _ _ _ (by rw [hfrontlen]; exact hi)]
    rw [hfrontlen]
    rw [getD_map_range _ _ _ _ (by omega)]
    congr 1
    omega
  · intro j hj hns
    show ((List.range lms.length).map _ ++ (List.range _).map _).getD j vec30 = _
    rw [List.getD_append _ _ _ _ (by rw [hfrontlen]; exact hj)]
    rw [getD_map_range _ _ _ _ hj]
    have hbase : (pipelineHeadVertices lms).getD j vec30 =
        ⟨((lms.getD j landmark0).x - centerX lms) / scaleX lms * 2,
         -((lms.getD j landmark0).y - centerY lms) / scaleY lms * 2,
         -(((lms.getD j landmark0).z - centerZ lms) / scaleZ lms * 2)⟩ := by
      show (frontVertices lms _ _ _ _ _ _ ++ backVertices lms _ _ _ _).getD j vec30 = _
      rw [List.getD_append _ _ _ _ (by simp [frontVertices]; exact hj)]
      rw [frontVertices, getD_map_lms lms _ j hj]
    rw [hbase]
    simp only [morphSelected, not_or, pipelineNormY] at hns
    obtain ⟨hn1, hn2, hn3⟩ := hns
    simp only [morphVertex]
    rw [if_neg hn1, if_neg hn2, if_neg hn3]

noncomputable def lmsC7 : List Landmark := [⟨1/10, 1/5, 3/10⟩, ⟨2/5, 1/2, 3/5⟩]

/-- C7 witness: concrete input, the first extension vertex (index 2) and an
unselected frontal vertex (index 0) of the `tongueOut` channel. -/
theorem morph_rigid_skull_and_unselected_witness :
    (2 : ℕ) ≤ 2 ∧ 2 < (pipelineHeadVertices lmsC7).length ∧
    (pipelineMorphTarget lmsC7 "tongueOut").getD 2 vec30 =
      (pipelineHeadVertices lmsC7).getD 2 vec30 ∧
    ¬ morphSelected "tongueOut" 0 (pipelineNormY lmsC7 0) ∧
    (pipelineMorphTarget lmsC7 "tongueOut").getD 0 vec30 =
      (pipelineHeadVertices lmsC7).getD 0 vec30 := by
  have hlen : (pipelineHeadVertices lmsC7).length = 99 := by
    rw [pipelineHeadVertices_length]; simp [lmsC7]
  have hns : ¬ morphSelected "tongueOut" 0 (pipelineNormY lmsC7 0) := by
    simp [morphSelected]
  refine ⟨le_refl 2, by omega, ?_, hns, ?_⟩
  · exact (morph_rigid_skull_and_unselected lmsC7 "tongueOut").1 2 (by simp [lmsC7]) (by omega)
  · exact (morph_rigid_skull_and_unselected lmsC7 "tongueOut").2 0 (by simp [lmsC7]) hns

end FaceToBlendshape
namespace ARKitMapper

/-! ## Mapper support lemmas -/

theorem setKey_self (m : String → Option ℚ) (k : String) (v : ℚ) : setKey m k v k = some v := by
  simp [setKey]

theorem setKey_other (m : String → Option ℚ) (k q : String) (v : ℚ) (h : q ≠ k) :
    setKey m k v q = m q := by
  simp [setKey, h]

theorem ite_setKey_other (c : Prop) [Decidable c] (m : String → Option ℚ) (k q : String)
    (v : ℚ) (h : q ≠ k) : (if c then setKey m k v else m) q = m q := by
  split_ifs <;> simp [setKey, h]

theorem setKey_isSome (m : String → Option ℚ) (k : String) (v : ℚ) (q : String)
    (h : (m q).isSome = true) : ((setKey m k v) q).isSome = true := by
  by_cases hq : q = k
  · subst hq; simp [setKey]
  · rw [setKey_other _ _ _ _ hq]; exact h

theorem ite_setKey_isSome (c : Prop) [Decidable c] (m : String → Option ℚ) (k : String)
    (v : ℚ) (q : String) (h : (m q).isSome = true) :
    ((if c then setKey m k v else m) q).isSome = true := by
  split_ifs with hc
  · exact setKey_isSome m k v q h
  · exact h

/-- Every value a blendshape map holds lies in [0, 1]. -/
def InRange (m : String → Option ℚ) : Prop := ∀ k v, m k = some v → 0 ≤ v ∧ v ≤ 1

theorem getD0_bounds (m : String → Option ℚ) (h : InRange m) (k : String) :
    0 ≤ (m k).getD 0 ∧ (m k).getD 0 ≤ 1 := by
  cases hm : m k with
  | none => norm_num
  | some v => simpa using h k v hm

theorem setKey_inrange (m : String → Option ℚ) (h : InRange m) (k : String) (v : ℚ)
    (hv : 0 ≤ v ∧ v ≤ 1) : InRange (setKey m k v) := by
  intro q w hq
  by_cases hqk : q = k
  · subst hqk
    rw [setKey_self] at hq
    cases hq
    exact hv
  · rw [setKey_other _ _ _ _ hqk] at hq
    exact h q w hq

theorem ite_setKey_inrange (c : Prop) [Decidable c] (m : String → Option ℚ) (k : String)
    (v : ℚ) (h : InRange m) (hv : c → 0 ≤ v ∧ v ≤ 1) :
    InRange (if c then setKey m k v else m) := by
  split_ifs with hc
  · exact setKey_inrange m h k v (hv hc)
  · exact h

theorem foldl_setKey_zero (l : List String) :
    ∀ (m0 : String → Option ℚ) (k : String),
      (l.foldl (fun m n => setKey m n 0) m0) k = if k ∈ l then some 0 else m0 k := by
  induction l with
  | nil => intro m0 k; simp
  | cons a l ih =>
    intro m0 k
    simp only [List.foldl_cons, ih, List.mem_cons]
    by_cases hl : k ∈ l
    · simp [hl]
    · by_cases ha : k = a <;> simp [setKey, hl, ha]

theorem initBlendshapes_eq (k : String) :
    initBlendshapes k = if k ∈ ARKIT_BLENDSHAPE_NAMES then some 0 else none := by
  rw [initBlendshapes, foldl_setKey_zero]

theorem initBlendshapes_inrange : InRange initBlendshapes := by
  intro k v h
  rw [initBlendshapes_eq] at h
  by_cases hk : k ∈ ARKIT_BLENDSHAPE_NAMES
  · rw [if_pos hk] at h
    have hv : v = 0 := by injection h with h2; exact h2.symm
    subst hv
    norm_num
  · rw [if_neg hk] at h
    cases h

theorem createMapping_id : ∀ p ∈ createMapping, p.1 = p.2 := by decide

theorem lookup_id (l : List (String × String)) (hl : ∀ p ∈ l, p.1 = p.2) :
    ∀ s t : String, l.lookup s = some t → t = s := by
  induction l with
  | nil => intro s t h; cases h
  | cons p l ih =>
    obtain ⟨k, v⟩ := p
    have hkv : k = v := hl (k, v) (by simp)
    intro s t h
    by_cases hs : s = k
    · subst hs
      simp [List.lookup] at h
      rw [← h]
      exact hkv.symm
    · have hb : (s == k) = false := by simp [hs]
      have hstep : List.lookup s ((k, v) :: l) = List.lookup s l := by
        simp [List.lookup, hb]
      rw [hstep] at h
      exact ih (fun p hp => hl p (by simp [hp])) s t h

theorem applyDetector_cons (m0 : String → Option ℚ) (c : Category) (cats : List Category) :
    applyDetector m0 (c :: cats) =
      applyDetector (match createMapping.lookup c.categoryName with
        | some arkitName => setKey m0 arkitName c.score
        | none => m0) cats := rfl

theorem applyDetector_isSome (cats : List Category) :
    ∀ (m0 : String → Option ℚ) (k : String), (m0 k).isSome = true →
      ((applyDetector m0 cats) k).isSome = true := by
  induction cats with
  | nil => intro m0 k h; exact h
  | cons c cats ih =>
    intro m0 k h
    rw [applyDetector_cons]
    apply ih
    cases hl : createMapping.lookup c.categoryName with
    | none => simpa [hl] using h
    | some n =>
      simp only [hl]
      exact setKey_isSome m0 n c.score k h

theorem applyDetector_inrange (cats : List Category)
    (hc : ∀ c ∈ cats, 0 ≤ c.score ∧ c.score ≤ 1) :
    ∀ (m0 : String → Option ℚ), InRange m0 → InRange (applyDetector m0 cats) := by
  induction cats with
  | nil => intro m0 h0; exact h0
  | cons c cats ih =>
    intro m0 h0
    rw [applyDetector_cons]
    apply ih (fun c' h' => hc c' (List.mem_cons_of_mem _ h'))
    cases hl : createMapping.lookup c.categoryName with
    | none => simpa [hl] using h0
    | some n =>
      simp only [hl]
      exact setKey_inrange m0 h0 n c.score (hc c (by simp))

theorem applyDetector_not_mem (cats : List Category) :
    ∀ (m0 : String → Option ℚ) (k : String), (∀ c ∈ cats, c.categoryName ≠ k) →
      applyDetector m0 cats k = m0 k := by
  induction cats with
  | nil => intro m0 k _; rfl
  | cons c cats ih =>
    intro m0 k h
    rw [applyDetector_cons, ih _ _ (fun c' h' => h c' (List.mem_cons_of_mem _ h'))]
    cases hl : createMapping.lookup c.categoryName with
    | none => simp [hl]
    | some n =>
      have hn : n = c.categoryName := lookup_id createMapping createMapping_id _ _ hl
      simp only [hl]
      apply setKey_other
      rw [hn]
      exact fun he => h c (by simp) he.symm

theorem mapStage_isSome (cats : List Category) (k : String)
    (hk : k ∈ ARKIT_BLENDSHAPE_NAMES) :
    ((applyDetector initBlendshapes cats) k).isSome = true := by
  apply applyDetector_isSome
  rw [initBlendshapes_eq, if_pos hk]
  rfl

end ARKitMapper
namespace ARKitMapper

/-! ## Evaluation of the enhanced map at the keys the heuristics touch -/

theorem jawStage_other (m : String → Option ℚ) (lms : List MPLandmark) (q : String)
    (h : q ≠ "jawOpen") : jawStage m lms q = m q :=
  ite_setKey_other _ m _ q _ h

theorem smileLeftStage_other (m : String → Option ℚ) (lms : List MPLandmark) (q : String)
    (h : q ≠ "mouthSmileLeft") : smileLeftStage m lms q = m q :=
  ite_setKey_other _ m _ q _ h

theorem smileRightStage_other (m : String → Option ℚ) (lms : List MPLandmark) (q : String)
    (h : q ≠ "mouthSmileRight") : smileRightStage m lms q = m q :=
  ite_setKey_other _ m _ q _ h

theorem browLeftStage_other (m : String → Option ℚ) (lms : List MPLandmark) (q : String)
    (h : q ≠ "browDownLeft") : browLeftStage m lms q = m q :=
  ite_setKey_other _ m _ q _ h

theorem browRightStage_other (m : String → Option ℚ) (lms : List MPLandmark) (q : String)
    (h : q ≠ "browDownRight") : browRightStage m lms q = m q :=
  ite_setKey_other _ m _ q _ h

/-- The final `jawOpen` value: backfilled from the mouth-open distance only
when the detector-mapped value is exactly 0. -/
theorem jawOpen_value (cats : List Category) (lms : List MPLandmark) :
    mapMediaPipeToARKit cats lms "jawOpen" =
      if applyDetector initBlendshapes cats "jawOpen" = some 0 then
        some (min (mouthOpenDistance lms * 5) 1)
      else applyDetector initBlendshapes cats "jawOpen" := by
  rw [mapMediaPipeToARKit, enhanceBlendshapesFromLandmarks,
    browRightStage_other _ _ _ (by decide), browLeftStage_other _ _ _ (by decide),
    smileRightStage_other _ _ _ (by decide), smileLeftStage_other _ _ _ (by decide),
    jawStage]
  split_ifs with h
  · rw [setKey_self]
  · rfl

/-- The final `mouthSmileLeft` value: the detector-mapped value, raised
through a max when the left-smile heuristic is positive. -/
theorem smileLeft_value (cats : List Category) (lms : List MPLandmark) :
    mapMediaPipeToARKit cats lms "mouthSmileLeft" =
      if 0 < leftSmileIntensity lms then
        some (max ((applyDetector initBlendshapes cats "mouthSmileLeft").getD 0)
          (min (leftSmileIntensity lms) 1))
      else applyDetector initBlendshapes cats "mouthSmileLeft" := by
  rw [mapMediaPipeToARKit, enhanceBlendshapesFromLandmarks,
    browRightStage_other _ _ _ (by decide), browLeftStage_other _ _ _ (by decide),
    smileRightStage_other _ _ _ (by decide), smileLeftStage]
  have hm1 : jawStage (applyDetector initBlendshapes cats) lms "mouthSmileLeft" =
      applyDetector initBlendshapes cats "mouthSmileLeft" :=
    jawStage_other _ _ _ (by decide)
  split_ifs with h
  · rw [setKey_self, hm1]
  · exact hm1

/-- The final `mouthSmileRight` value. -/
theorem smileRight_value (cats : List Category) (lms : List MPLandmark) :
    mapMediaPipeToARKit cats lms "mouthSmileRight" =
      if 0 < rightSmileIntensity lms then
        some (max ((applyDetector initBlendshapes cats "mouthSmileRight").getD 0)
          (min (rightSmileIntensity lms) 1))
      else applyDetector initBlendshapes cats "mouthSmileRight" := by
  rw [mapMediaPipeToARKit, enhanceBlendshapesFromLandmarks,
    browRightStage_other _ _ _ (by decide), browLeftStage_other _ _ _ (by decide),
    smileRightStage]
  have hm2 : smileLeftStage (jawStage (applyDetector initBlendshapes cats) lms) lms
        "mouthSmileRight" = applyDetector initBlendshapes cats "mouthSmileRight" := by
    rw [smileLeftStage_other _ _ _ (by decide), jawStage_other _ _ _ (by decide)]
  split_ifs with h
  · rw [setKey_self, hm2]
  · exact hm2

end ARKitMapper
namespace ARKitMapper

/-! ## C9 -/

/-- C9: with detector scores in [0,1], the output map holds all 52 ARKit
channel names with values in [0,1], and channels absent from the detector
input are 0 before the landmark-geometry backfill. -/
theorem mapper_output_complete_in_unit_interval (cats : List Category)
    (lms : List MPLandmark) (hs : ∀ c ∈ cats, 0 ≤ c.score ∧ c.score ≤ 1) :
    (∀ name ∈ ARKIT_BLENDSHAPE_NAMES,
      ∃ v, mapMediaPipeToARKit cats lms name = some v ∧ 0 ≤ v ∧ v ≤ 1) ∧
    (∀ name ∈ ARKIT_BLENDSHAPE_NAMES, (∀ c ∈ cats, c.categoryName ≠ name) →
      applyDetector initBlendshapes cats name = some 0) := by
  constructor
  · intro name hname
    have h1 : InRange (applyDetector initBlendshapes cats) :=
      applyDetector_inrange cats hs initBlendshapes initBlendshapes_inrange
    have hjaw : InRange (jawStage (applyDetector initBlendshapes cats) lms) := by
      unfold jawStage
      exact ite_setKey_inrange _ _ _ _ h1 (fun _ =>
        ⟨le_min (mul_nonneg (abs_nonneg _) (by norm_num)) zero_le_one, min_le_right _ _⟩)
    have hsl : InRange (smileLeftStage
        (jawStage (applyDetector initBlendshapes cats) lms) lms) := by
      unfold smileLeftStage
      apply ite_setKey_inrange _ _ _ _ hjaw
      intro hp
      have hb := getD0_bounds _ hjaw "mouthSmileLeft"
      exact ⟨le_max_of_le_left hb.1, max_le hb.2 (min_le_right _ _)⟩
    have hsr : InRange (smileRightStage (smileLeftStage
        (jawStage (applyDetector initBlendshapes cats) lms) lms) lms) := by
      unfold smileRightStage
      apply ite_setKey_inrange _ _ _ _ hsl
      intro hp
      have hb := getD0_bounds _ hsl "mouthSmileRight"
      exact ⟨le_max_of_le_left hb.1, max_le hb.2 (min_le_right _ _)⟩
    have hbl : InRange (browLeftStage (smileRightStage (smileLeftStage
        (jawStage (applyDetector initBlendshapes cats) lms) lms) lms) lms) := by
      unfold browLeftStage
      exact ite_setKey_inrange _ _ _ _ hsr (fun _ =>
        ⟨le_min (abs_nonneg _) zero_le_one, min_le_right _ _⟩)
    have hbr : InRange (browRightStage (browLeftStage (smileRightStage (smileLeftStage
        (jawStage (applyDetector initBlendshapes cats) lms) lms) lms) lms) lms) := by
      unfold browRightStage
      exact ite_setKey_inrange _ _ _ _ hbl (fun _ =>
        ⟨le_min (abs_nonneg _) zero_le_one, min_le_right _ _⟩)
    have h2 : InRange (mapMediaPipeToARKit cats lms) := by
      rw [mapMediaPipeToARKit, enhanceBlendshapesFromLandmarks]
      exact hbr
    have h3 : ((mapMediaPipeToARKit cats lms) name).isSome = true := by
      rw [mapMediaPipeToARKit, enhanceBlendshapesFromLandmarks]
      unfold browRightStage browLeftStage smileRightStage smileLeftStage jawStage
      apply ite_setKey_isSome
      apply ite_setKey_isSome
      apply ite_setKey_isSome
      apply ite_setKey_isSome
      apply ite_setKey_isSome
      exact mapStage_isSome cats name hname
    obtain ⟨v, hv⟩ := Option.isSome_iff_exists.1 h3
    exact ⟨v, hv, h2 name v hv⟩
  · intro name hname habs
    rw [applyDetector_not_mem cats initBlendshapes name habs, initBlendshapes_eq,
      if_pos hname]

def catsC9 : List Category := [⟨"jawOpen", 1/2⟩]

/-- C9 witness: one detector entry of score 1/2 and the empty LandmarkSet
(every index reads the default point, exercising the heuristics). -/
theorem mapper_output_complete_witness :
    (∀ c ∈ catsC9, 0 ≤ c.score ∧ c.score ≤ 1) ∧
    (∃ v, mapMediaPipeToARKit catsC9 [] "tongueOut" = some v ∧ 0 ≤ v ∧ v ≤ 1) ∧
    applyDetector initBlendshapes catsC9 "mouthSmileLeft" = some 0 := by
  have hs : ∀ c ∈ catsC9, 0 ≤ c.score ∧ c.score ≤ 1 := by
    intro c hc
    simp only [catsC9, List.mem_cons, List.not_mem_nil, or_false] at hc
    subst hc
    norm_num
  refine ⟨hs, ?_, ?_⟩
  · exact (mapper_output_complete_in_unit_interval catsC9 [] hs).1 "tongueOut" (by decide)
  · exact (mapper_output_complete_in_unit_interval catsC9 [] hs).2 "mouthSmileLeft"
      (by decide) (by intro c hc; simp only [catsC9, List.mem_cons, List.not_mem_nil,
        or_false] at hc; subst hc; decide)

end ARKitMapper
namespace ARKitMapper

/-! ## C10 -/

/-- C10: the landmark-geometry backfill never lowers a detector-supplied
score for jawOpen or the smile channels: a nonzero detector jawOpen passes
through unchanged, and each smile output is at least the detector-mapped
value (the heuristic only raises it through a max). -/
theorem backfill_never_lowers_detector (cats : List Category) (lms : List MPLandmark) :
    (∀ v : ℚ, applyDetector initBlendshapes cats "jawOpen" = some v → 0 < v →
      mapMediaPipeToARKit cats lms "jawOpen" = some v) ∧
    (∃ wl : ℚ, mapMediaPipeToARKit cats lms "mouthSmileLeft" = some wl ∧
      (applyDetector initBlendshapes cats "mouthSmileLeft").getD 0 ≤ wl) ∧
    (∃ wr : ℚ, mapMediaPipeToARKit cats lms "mouthSmileRight" = some wr ∧
      (applyDetector initBlendshapes cats "mouthSmileRight").getD 0 ≤ wr) := by
  refine ⟨?_, ?_, ?_⟩
  · intro v hv hvpos
    rw [jawOpen_value, if_neg, hv]
    rw [hv]
    intro hcontra
    injection hcontra with h0
    rw [h0] at hvpos
    exact lt_irrefl 0 hvpos
  · rw [smileLeft_value]
    split_ifs with h
    · exact ⟨_, rfl, le_max_left _ _⟩
    · obtain ⟨w, hw⟩ := Option.isSome_iff_exists.1
        (mapStage_isSome cats "mouthSmileLeft" (by decide))
      exact ⟨w, hw, by rw [hw]; exact le_refl w⟩
  · rw [smileRight_value]
    split_ifs with h
    · exact ⟨_, rfl, le_max_left _ _⟩
    · obtain ⟨w, hw⟩ := Option.isSome_iff_exists.1
        (mapStage_isSome cats "mouthSmileRight" (by decide))
      exact ⟨w, hw, by rw [hw]; exact le_refl w⟩

def catsC10 : List Category := [⟨"jawOpen", 3/4⟩, ⟨"mouthSmileLeft", 2/5⟩]

/-- C10 witness: a detector that supplies jawOpen = 3/4 and
mouthSmileLeft = 2/5; with the empty LandmarkSet the heuristics leave the
jaw value untouched and cannot lower the smile values. -/
theorem backfill_never_lowers_detector_witness :
    applyDetector initBlendshapes catsC10 "jawOpen" = some (3/4) ∧
    (0 : ℚ) < 3/4 ∧
    mapMediaPipeToARKit catsC10 [] "jawOpen" = some (3/4) ∧
    (∃ wl : ℚ, mapMediaPipeToARKit catsC10 [] "mouthSmileLeft" = some wl ∧
      (applyDetector initBlendshapes catsC10 "mouthSmileLeft").getD 0 ≤ wl) := by
  have hdet : applyDetector initBlendshapes catsC10 "jawOpen" = some (3/4) := by
    show setKey (setKey initBlendshapes "jawOpen" (3/4)) "mouthSmileLeft" (2/5) "jawOpen" =
      some (3/4)
    rw [setKey_other _ _ _ _ (by decide), setKey_self]
  have hpos : (0 : ℚ) < 3/4 := by norm_num
  exact ⟨hdet, hpos, (backfill_never_lowers_detector catsC10 []).1 (3/4) hdet hpos,
    (backfill_never_lowers_detector catsC10 []).2.1⟩

end ARKitMapper
namespace ARKitMapper

/-! ## C8 -/

/-- A baseline LandmarkSet: mouth corners at (2/5, 29/50) and (3/5, 59/100),
mouth center (landmark 13) at (1/2, 3/5), all other landmarks (1/2, 1/2). -/
def lmsSmileBase : List MPLandmark :=
  (List.range 292).map fun i =>
    if i = 61 then ⟨2/5, 29/50, 0⟩
    else if i = 291 then ⟨3/5, 59/100, 0⟩
    else if i = 13 then ⟨1/2, 3/5, 0⟩
    else ⟨1/2, 1/2, 0⟩

/-- The baseline with the two mouth corners moved 2× further apart about
their midpoint (1/2, 117/200): corners (3/10, 23/40) and (7/10, 119/200). -/
def lmsSmileVar : List MPLandmark :=
  (List.range 292).map fun i =>
    if i = 61 then ⟨3/10, 23/40, 0⟩
    else if i = 291 then ⟨7/10, 119/200, 0⟩
    else if i = 13 then ⟨1/2, 3/5, 0⟩
    else ⟨1/2, 1/2, 0⟩

/-- The baseline with the two mouth corners moved 2× further apart purely
horizontally: corners (3/10, 29/50) and (7/10, 59/100), y unchanged. -/
def lmsSmileVarX : List MPLandmark :=
  (List.range 292).map fun i =>
    if i = 61 then ⟨3/10, 29/50, 0⟩
    else if i = 291 then ⟨7/10, 59/100, 0⟩
    else if i = 13 then ⟨1/2, 3/5, 0⟩
    else ⟨1/2, 1/2, 0⟩

theorem lmsSmileBase_getD (i : ℕ) (h : i < 292) :
    lmsSmileBase.getD i mp0 =
      if i = 61 then ⟨2/5, 29/50, 0⟩
      else if i = 291 then ⟨3/5, 59/100, 0⟩
      else if i = 13 then ⟨1/2, 3/5, 0⟩
      else ⟨1/2, 1/2, 0⟩ :=
  FaceToBlendshape.getD_map_range 292 i _ mp0 h

theorem lmsSmileVar_getD (i : ℕ) (h : i < 292) :
    lmsSmileVar.getD i mp0 =
      if i = 61 then ⟨3/10, 23/40, 0⟩
      else if i = 291 then ⟨7/10, 119/200, 0⟩
      else if i = 13 then ⟨1/2, 3/5, 0⟩
      else ⟨1/2, 1/2, 0⟩ :=
  FaceToBlendshape.getD_map_range 292 i _ mp0 h

theorem lmsSmileVarX_getD (i : ℕ) (h : i < 292) :
    lmsSmileVarX.getD i mp0 =
      if i = 61 then ⟨3/10, 29/50, 0⟩
      else if i = 291 then ⟨7/10, 59/100, 0⟩
      else if i = 13 then ⟨1/2, 3/5, 0⟩
      else ⟨1/2, 1/2, 0⟩ :=
  FaceToBlendshape.getD_map_range 292 i _ mp0 h

theorem init_mouthSmileRight : initBlendshapes "mouthSmileRight" = some 0 := by
  rw [initBlendshapes_eq, if_pos (by decide)]

theorem rsi_base : rightSmileIntensity lmsSmileBase = 1/10 := by
  rw [rightSmileIntensity, lmsSmileBase_getD 291 (by norm_num),
    lmsSmileBase_getD 13 (by norm_num)]
  norm_num

theorem rsi_var : rightSmileIntensity lmsSmileVar = 1/20 := by
  rw [rightSmileIntensity, lmsSmileVar_getD 291 (by norm_num),
    lmsSmileVar_getD 13 (by norm_num)]
  norm_num

theorem smileRight_of_empty (lms : List MPLandmark) (s : ℚ)
    (hr : rightSmileIntensity lms = s) (hpos : 0 < s) (hle : s ≤ 1) :
    mapMediaPipeToARKit [] lms "mouthSmileRight" = some s := by
  rw [smileRight_value, hr, if_pos hpos]
  have hd : applyDetector initBlendshapes [] = initBlendshapes := rfl
  rw [hd, init_mouthSmileRight]
  rw [show (some (0:ℚ)).getD 0 = 0 from rfl, min_eq_left hle, max_eq_right hpos.le]

/-- C8 counterexample: a baseline and a variant whose mouth corners are
moved exactly 2× further apart (squared distance quadrupled, all other
landmarks unchanged), yet the variant's `mouthSmileRight` score 1/20 is
strictly below the baseline's 1/10 — the claim "each at least as large"
fails. -/
theorem smile_separation_counterexample :
    distSq (lmsSmileVar.getD 61 mp0) (lmsSmileVar.getD 291 mp0) =
      4 * distSq (lmsSmileBase.getD 61 mp0) (lmsSmileBase.getD 291 mp0) ∧
    (∀ i : ℕ, i ≠ 61 → i ≠ 291 → lmsSmileVar.getD i mp0 = lmsSmileBase.getD i mp0) ∧
    mapMediaPipeToARKit [] lmsSmileBase "mouthSmileRight" = some (1/10) ∧
    mapMediaPipeToARKit [] lmsSmileVar "mouthSmileRight" = some (1/20) ∧
    ¬ ((1 : ℚ)/10 ≤ 1/20) := by
  refine ⟨?_, ?_, ?_, ?_, by norm_num⟩
  · rw [lmsSmileVar_getD 61 (by norm_num), lmsSmileVar_getD 291 (by norm_num),
      lmsSmileBase_getD 61 (by norm_num), lmsSmileBase_getD 291 (by norm_num)]
    norm_num [distSq]
  · intro i h61 h291
    by_cases hlt : i < 292
    · rw [lmsSmileVar_getD i hlt, lmsSmileBase_getD i hlt]
      simp [h61, h291]
    · have hge : lmsSmileVar.length ≤ i := by
        simp only [lmsSmileVar, List.length_map, List.length_range]
        omega
      have hge2 : lmsSmileBase.length ≤ i := by
        simp only [lmsSmileBase, List.length_map, List.length_range]
        omega
      rw [List.getD_eq_default _ _ hge, List.getD_eq_default _ _ hge2]
  · exact smileRight_of_empty _ _ rsi_base (by norm_num) (by norm_num)
  · exact smileRight_of_empty _ _ rsi_var (by norm_num) (by norm_num)

/-- C8 amended: when the two mouth-corner landmarks are moved further
apart horizontally only (their y coordinates and the mouth-center landmark
unchanged — e.g. doubling the horizontal separation), the resulting
mouthSmileLeft and mouthSmileRight scores are each at least as large as the
baseline's (they are equal), and both are at most 1 provided the detector
scores lie in [0,1]. -/
theorem smile_horizontal_separation_monotone (cats : List Category)
    (b v : List MPLandmark)
    (h61 : (v.getD 61 mp0).y = (b.getD 61 mp0).y)
    (h291 : (v.getD 291 mp0).y = (b.getD 291 mp0).y)
    (h13 : (v.getD 13 mp0).y = (b.getD 13 mp0).y)
    (hs : ∀ c ∈ cats, 0 ≤ c.score ∧ c.score ≤ 1) :
    (∃ wb wv : ℚ, mapMediaPipeToARKit cats b "mouthSmileLeft" = some wb ∧
      mapMediaPipeToARKit cats v "mouthSmileLeft" = some wv ∧ wb ≤ wv ∧ wv ≤ 1) ∧
    (∃ wb wv : ℚ, mapMediaPipeToARKit cats b "mouthSmileRight" = some wb ∧
      mapMediaPipeToARKit cats v "mouthSmileRight" = some wv ∧ wb ≤ wv ∧ wv ≤ 1) := by
  have hM : InRange (applyDetector initBlendshapes cats) :=
    applyDetector_inrange cats hs initBlendshapes initBlendshapes_inrange
  have hleq : leftSmileIntensity v = leftSmileIntensity b := by
    rw [leftSmileIntensity, leftSmileIntensity, h61, h13]
  have hreq : rightSmileIntensity v = rightSmileIntensity b := by
    rw [rightSmileIntensity, rightSmileIntensity, h291, h13]
  have hvl : mapMediaPipeToARKit cats v "mouthSmileLeft" =
      mapMediaPipeToARKit cats b "mouthSmileLeft" := by
    rw [smileLeft_value, smileLeft_value, hleq]
  have hvr : mapMediaPipeToARKit cats v "mouthSmileRight" =
      mapMediaPipeToARKit cats b "mouthSmileRight" := by
    rw [smileRight_value, smileRight_value, hreq]
  constructor
  · obtain ⟨u, hu⟩ := Option.isSome_iff_exists.1
      (mapStage_isSome cats "mouthSmileLeft" (by decide))
    have hub := hM _ _ hu
    have hvalb : ∃ wb, mapMediaPipeToARKit cats b "mouthSmileLeft" = some wb ∧ wb ≤ 1 := by
      rw [smileLeft_value]
      split_ifs with hc
      · refine ⟨_, rfl, ?_⟩
        apply max_le _ (min_le_right _ _)
        rw [hu]
        exact hub.2
      · exact ⟨u, hu, hub.2⟩
    obtain ⟨wb, hwb, hwb1⟩ := hvalb
    exact ⟨wb, wb, hwb, by rw [hvl]; exact hwb, le_refl wb, hwb1⟩
  · obtain ⟨u, hu⟩ := Option.isSome_iff_exists.1
      (mapStage_isSome cats "mouthSmileRight" (by decide))
    have hub := hM _ _ hu
    have hvalb : ∃ wb, mapMediaPipeToARKit cats b "mouthSmileRight" = some wb ∧ wb ≤ 1 := by
      rw [smileRight_value]
      split_ifs with hc
      · refine ⟨_, rfl, ?_⟩
        apply max_le _ (min_le_right _ _)
        rw [hu]
        exact hub.2
      · exact ⟨u, hu, hub.2⟩
    obtain ⟨wb, hwb, hwb1⟩ := hvalb
    exact ⟨wb, wb, hwb, by rw [hvr]; exact hwb, le_refl wb, hwb1⟩

/-- C8 amended-claim witness: the concrete baseline and its x-only-doubled
variant, with an empty detector input. -/
theorem smile_horizontal_separation_monotone_witness :
    ((lmsSmileVarX.getD 61 mp0).y = (lmsSmileBase.getD 61 mp0).y) ∧
    ((lmsSmileVarX.getD 291 mp0).y = (lmsSmileBase.getD 291 mp0).y) ∧
    ((lmsSmileVarX.getD 13 mp0).y = (lmsSmileBase.getD 13 mp0).y) ∧
    (∃ wb wv : ℚ, mapMediaPipeToARKit [] lmsSmileBase "mouthSmileLeft" = some wb ∧
      mapMediaPipeToARKit [] lmsSmileVarX "mouthSmileLeft" = some wv ∧
      wb ≤ wv ∧ wv ≤ 1) := by
  have h61 : (lmsSmileVarX.getD 61 mp0).y = (lmsSmileBase.getD 61 mp0).y := by
    rw [lmsSmileVarX_getD 61 (by norm_num), lmsSmileBase_getD 61 (by norm_num)]
    norm_num
  have h291 : (lmsSmileVarX.getD 291 mp0).y = (lmsSmileBase.getD 291 mp0).y := by
    rw [lmsSmileVarX_getD 291 (by norm_num), lmsSmileBase_getD 291 (by norm_num)]
    norm_num
  have h13 : (lmsSmileVarX.getD 13 mp0).y = (lmsSmileBase.getD 13 mp0).y := by
    rw [lmsSmileVarX_getD 13 (by norm_num), lmsSmileBase_getD 13 (by norm_num)]
    norm_num
  have hs : ∀ c ∈ ([] : List Category), 0 ≤ c.score ∧ c.score ≤ 1 :=
    fun c hc => absurd hc (List.not_mem_nil c)
  exact ⟨h61, h291, h13,
    (smile_horizontal_separation_monotone [] lmsSmileBase lmsSmileVarX h61 h291 h13 hs).1⟩

end ARKitMapper
namespace FaceToBlendshape

/-! ## C4: monotonicity of the layer sweep -/

namespace C4Support

theorem ringT_eq (k : ℕ) : ringT k = (k : ℝ) / 7 := by
  rw [ringT, ringsN]
  norm_num

theorem layerAngle_eq (k : ℕ) : layerAngle k = (k : ℝ) * (Real.pi / 7) := by
  rw [layerAngle, ringT_eq]
  ring

theorem layerZ_eq (k : ℕ) :
    layerZ k = -Real.sin ((k : ℝ) * (Real.pi / 7)) * 1.2 * (1 - (k : ℝ) / 7 * 0.2) := by
  rw [layerZ, layerAngle_eq, headRadius, radiusScale, ringT_eq]

theorem lateralScale_eq (k : ℕ) :
    lateralScale k = (Real.cos ((k : ℝ) * (Real.pi / 7)) * 0.3 + 0.7) *
      (1 - (k : ℝ) / 7 * 0.2) := by
  rw [lateralScale, layerAngle_eq, radiusScale, ringT_eq]

theorem pi7_pos : (0 : ℝ) < Real.pi / 7 := by
  have := Real.pi_pos
  linarith

theorem cos_pi7_ge : Real.sqrt 3 / 2 ≤ Real.cos (Real.pi / 7) := by
  have h := Real.pi_pos
  have h1 : Real.cos (Real.pi / 6) ≤ Real.cos (Real.pi / 7) :=
    Real.cos_le_cos_of_nonneg_of_le_pi (by linarith) (by linarith) (by linarith)
  rw [Real.cos_pi_div_six] at h1
  exact h1

theorem sqrt3_low : (1.7 : ℝ) ≤ Real.sqrt 3 := by
  have h := Real.sq_sqrt (show (0:ℝ) ≤ 3 by norm_num)
  nlinarith [Real.sqrt_nonneg 3]

theorem cos_pi7_ge85 : (0.85 : ℝ) ≤ Real.cos (Real.pi / 7) := by
  have h1 := cos_pi7_ge
  have h2 := sqrt3_low
  linarith

theorem sin_pi7_pos : 0 < Real.sin (Real.pi / 7) := by
  have h := Real.pi_pos
  exact Real.sin_pos_of_pos_of_lt_pi pi7_pos (by linarith)

theorem sin_two_pi7 : Real.sin (2 * (Real.pi / 7)) =
    2 * Real.sin (Real.pi / 7) * Real.cos (Real.pi / 7) :=
  Real.sin_two_mul _

theorem sin_three_pi7 : Real.sin (3 * (Real.pi / 7)) =
    Real.sin (Real.pi / 7) * (4 * Real.cos (Real.pi / 7) ^ 2 - 1) := by
  rw [show (3 : ℝ) * (Real.pi / 7) = 2 * (Real.pi / 7) + Real.pi / 7 by ring,
    Real.sin_add, Real.sin_two_mul, Real.cos_two_mul]
  ring

theorem sin_four_pi7 : Real.sin (4 * (Real.pi / 7)) = Real.sin (3 * (Real.pi / 7)) := by
  rw [show (4 : ℝ) * (Real.pi / 7) = Real.pi - 3 * (Real.pi / 7) by ring, Real.sin_pi_sub]

theorem sin_five_pi7 : Real.sin (5 * (Real.pi / 7)) = Real.sin (2 * (Real.pi / 7)) := by
  rw [show (5 : ℝ) * (Real.pi / 7) = Real.pi - 2 * (Real.pi / 7) by ring, Real.sin_pi_sub]

theorem sin_six_pi7 : Real.sin (6 * (Real.pi / 7)) = Real.sin (Real.pi / 7) := by
  rw [show (6 : ℝ) * (Real.pi / 7) = Real.pi - Real.pi / 7 by ring, Real.sin_pi_sub]

theorem sin_seven_pi7 : Real.sin (7 * (Real.pi / 7)) = 0 := by
  rw [show (7 : ℝ) * (Real.pi / 7) = Real.pi by ring, Real.sin_pi]

theorem sin_one_lt_two : Real.sin (Real.pi / 7) < Real.sin (2 * (Real.pi / 7)) := by
  have h1 := sin_pi7_pos
  have h2 := cos_pi7_ge85
  rw [sin_two_pi7]
  nlinarith

theorem sin_two_lt_three : Real.sin (2 * (Real.pi / 7)) < Real.sin (3 * (Real.pi / 7)) := by
  have h1 := sin_pi7_pos
  have h2 := cos_pi7_ge85
  have hker : (0:ℝ) < 4 * Real.cos (Real.pi / 7) ^ 2 - 2 * Real.cos (Real.pi / 7) - 1 := by
    nlinarith [sq_nonneg (Real.cos (Real.pi / 7) - 0.85)]
  rw [sin_two_pi7, sin_three_pi7]
  nlinarith [mul_pos h1 hker]

theorem sin_two_pos : 0 < Real.sin (2 * (Real.pi / 7)) :=
  lt_trans sin_pi7_pos sin_one_lt_two

theorem sin_three_pos : 0 < Real.sin (3 * (Real.pi / 7)) :=
  lt_trans sin_two_pos sin_two_lt_three

theorem layerZ_zero : layerZ 0 = 0 := by
  rw [layerZ_eq]
  norm_num

theorem layerZ_seven : layerZ 7 = 0 := by
  rw [layerZ_eq]
  push_cast
  rw [sin_seven_pi7]
  ring

theorem layerZ_three_neg : layerZ 3 < 0 := by
  rw [layerZ_eq]
  push_cast
  have h := sin_three_pos
  nlinarith

theorem layerZ_step01 : layerZ 1 ≤ layerZ 0 := by
  rw [layerZ_eq, layerZ_eq]
  push_cast
  simp only [one_mul, zero_mul, Real.sin_zero]
  nlinarith [sin_pi7_pos]

theorem layerZ_step12 : layerZ 2 ≤ layerZ 1 := by
  rw [layerZ_eq, layerZ_eq]
  push_cast
  simp only [one_mul]
  nlinarith [sin_pi7_pos, cos_pi7_ge85, sin_two_pi7,
    mul_le_mul_of_nonneg_left cos_pi7_ge85 sin_pi7_pos.le]

theorem layerZ_step23 : layerZ 3 ≤ layerZ 2 := by
  rw [layerZ_eq, layerZ_eq]
  push_cast
  have hker : (0:ℝ) ≤ 128 * Real.cos (Real.pi / 7) ^ 2 - 66 * Real.cos (Real.pi / 7) - 32 := by
    nlinarith [sq_nonneg (Real.cos (Real.pi / 7) - 0.85), cos_pi7_ge85]
  nlinarith [mul_nonneg sin_pi7_pos.le hker, sin_two_pi7, sin_three_pi7]

theorem layerZ_step34 : layerZ 3 ≤ layerZ 4 := by
  rw [layerZ_eq, layerZ_eq]
  push_cast
  nlinarith [sin_four_pi7, sin_three_pos]

theorem layerZ_step45 : layerZ 4 ≤ layerZ 5 := by
  rw [layerZ_eq, layerZ_eq]
  push_cast
  nlinarith [sin_four_pi7, sin_five_pi7, sin_two_lt_three, sin_two_pos]

theorem layerZ_step56 : layerZ 5 ≤ layerZ 6 := by
  rw [layerZ_eq, layerZ_eq]
  push_cast
  nlinarith [sin_five_pi7, sin_six_pi7, sin_one_lt_two, sin_pi7_pos]

theorem layerZ_step67 : layerZ 6 ≤ layerZ 7 := by
  rw [layerZ_eq, layerZ_eq]
  push_cast
  nlinarith [sin_six_pi7, sin_seven_pi7, sin_pi7_pos]

end C4Support

/-- C4 counterexample: the layer depth `layerZ` of the spherical back sweep
is not monotonic in the ring index (in either direction): it is 0 at ring
0, strictly negative at ring 3, and back to 0 at ring 7 (the final ring
returns to the face plane, since the depth follows a sine half-arc and
sin π = 0). -/
theorem layer_depth_not_monotonic :
    ¬ ((∀ i j : ℕ, i ≤ j → j ≤ 7 → layerZ i ≤ layerZ j) ∨
       (∀ i j : ℕ, i ≤ j → j ≤ 7 → layerZ j ≤ layerZ i)) := by
  rintro (hmono | hanti)
  · have h := hmono 0 3 (by norm_num) (by norm_num)
    rw [C4Support.layerZ_zero] at h
    have := C4Support.layerZ_three_neg
    linarith
  · have h := hanti 3 7 (by norm_num) (by norm_num)
    rw [C4Support.layerZ_seven] at h
    have := C4Support.layerZ_three_neg
    linarith

/-- C4 amended: the lateral scale factor of the layer sweep shrinks
strictly monotonically over the whole ring range, while the backward depth
is only two-phase monotonic: it deepens monotonically from ring 0 to the
peak at ring 3 and then returns monotonically toward the face plane by
ring 7 (a sine half-arc, not a monotone ramp). -/
theorem lateral_scale_antitone_depth_two_phase :
    (∀ i j : ℕ, i < j → j ≤ 7 → lateralScale j < lateralScale i) ∧
    (∀ i j : ℕ, i ≤ j → j ≤ 3 → layerZ j ≤ layerZ i) ∧
    (∀ i j : ℕ, 3 ≤ i → i ≤ j → j ≤ 7 → layerZ i ≤ layerZ j) := by
  refine ⟨?_, ?_, ?_⟩
  · intro i j hij hj7
    have hπ := Real.pi_pos
    rw [C4Support.lateralScale_eq, C4Support.lateralScale_eq]
    have hia : (i : ℝ) * (Real.pi / 7) < (j : ℝ) * (Real.pi / 7) := by
      have hij' : (i : ℝ) < (j : ℝ) := by exact_mod_cast hij
      have := C4Support.pi7_pos
      nlinarith
    have hmem_i : (i : ℝ) * (Real.pi / 7) ∈ Set.Icc 0 Real.pi := by
      constructor
      · positivity
      · have hj' : (i : ℝ) ≤ 7 := by
          have h7 : i ≤ 7 := by omega
          exact_mod_cast h7
        nlinarith
    have hmem_j : (j : ℝ) * (Real.pi / 7) ∈ Set.Icc 0 Real.pi := by
      constructor
      · positivity
      · have hj' : (j : ℝ) ≤ 7 := by exact_mod_cast hj7
        nlinarith
    have hcos : Real.cos ((j : ℝ) * (Real.pi / 7)) < Real.cos ((i : ℝ) * (Real.pi / 7)) :=
      Real.strictAntiOn_cos hmem_i hmem_j hia
    have hcj : -1 ≤ Real.cos ((j : ℝ) * (Real.pi / 7)) := Real.neg_one_le_cos _
    have hci : Real.cos ((i : ℝ) * (Real.pi / 7)) ≤ 1 := Real.cos_le_one _
    have hjr : (j : ℝ) ≤ 7 := by exact_mod_cast hj7
    have hij' : (i : ℝ) < (j : ℝ) := by exact_mod_cast hij
    have hir : (0 : ℝ) ≤ (i : ℝ) := by positivity
    nlinarith [hcos, hcj, hci, hjr, hij', hir]
  · intro i j hij hj3
    have a1 := C4Support.layerZ_step01
    have a2 := C4Support.layerZ_step12
    have a3 := C4Support.layerZ_step23
    interval_cases j <;> interval_cases i <;> linarith
  · intro i j h3i hij hj7
    have a4 := C4Support.layerZ_step34
    have a5 := C4Support.layerZ_step45
    have a6 := C4Support.layerZ_step56
    have a7 := C4Support.layerZ_step67
    have hi7 : i ≤ 7 := le_trans hij hj7
    interval_cases i <;> interval_cases j <;> linarith

/-- C4 amended-claim witness: concrete ring indices. -/
theorem lateral_scale_antitone_depth_two_phase_witness :
    lateralScale 1 < lateralScale 0 ∧ layerZ 2 ≤ layerZ 1 ∧ layerZ 5 ≤ layerZ 7 := by
  refine ⟨?_, ?_, ?_⟩
  · exact lateral_scale_antitone_depth_two_phase.1 0 1 (by norm_num) (by norm_num)
  · exact lateral_scale_antitone_depth_two_phase.2.1 1 2 (by norm_num) (by norm_num)
  · exact lateral_scale_antitone_depth_two_phase.2.2 5 7 (by norm_num) (by norm_num) (by norm_num)

end FaceToBlendshape
